import Mathlib

/-!
# The Windows COFF/PE object writer of `src/binaryToObject/pe.cpp`

A shallow embedding of `pad`, `WindowsPlatform::FileWriter`,
`WindowsPlatform::SectionWriter` and `WindowsPlatform::writeObject`, followed by
theorems about the bytes the writer emits.

Conventions of the embedding:

* a byte is a `Nat`; byte sequences (buffers, the payload, the output sink) are
  `List Nat`;
* `unsigned`, `uint32_t`, `uint16_t`, `uint8_t` values are `Nat`s reduced with an
  explicit `%` at every place where the C++ code converts or wraps; `size_t` is
  the 64-bit type of a 64-bit host;
* the packed structs are written to the sink in the byte order of the
  little-endian hosts the tool is built for;
* the C++ objects are passed as explicit state: a `FileWriter` value, a
  `SectionWriter` value, and a `Streams` value for the output sink and the
  console;
* members the C++ constructors leave unassigned keep the indeterminate
  contents of the stack, which the embedding takes as an argument (`Uninit`).
-/

namespace PE

/-! ## Machine integers -/

/-- Conversion to `uint8_t`. -/
def u8 (n : Nat) : Nat := n % 256

/-- Conversion to `uint16_t` (and the bit pattern of an `int16_t`). -/
def u16 (n : Nat) : Nat := n % 65536

/-- Conversion to `unsigned` / `uint32_t`. -/
def u32 (n : Nat) : Nat := n % 4294967296

/-- Subtraction `a - b` of two `size_t` values on a 64-bit host: it wraps
modulo `2^64` when `b` exceeds `a`. -/
def subSize (a b : Nat) : Nat := (a + 18446744073709551616 - b) % 18446744073709551616

/-- The two bytes of a 16-bit field, least significant first. -/
def le16 (n : Nat) : List Nat := [n % 256, n / 256 % 256]

/-- The four bytes of a 32-bit field, least significant first. -/
def le32 (n : Nat) : List Nat :=
  [n % 256, n / 256 % 256, n / 65536 % 256, n / 16777216 % 256]

/-- The byte at offset `off` of a byte sequence. -/
def readU8 (bs : List Nat) (off : Nat) : Nat := bs.getD off 0

/-- The little-endian 16-bit value at offset `off` of a byte sequence. -/
def readU16 (bs : List Nat) (off : Nat) : Nat :=
  bs.getD off 0 + 256 * bs.getD (off + 1) 0

/-- The little-endian 32-bit value at offset `off` of a byte sequence. -/
def readU32 (bs : List Nat) (off : Nat) : Nat :=
  bs.getD off 0 + 256 * bs.getD (off + 1) 0 + 65536 * bs.getD (off + 2) 0
    + 16777216 * bs.getD (off + 3) 0

/-! ## Constants (`pe.cpp` lines 20-35) -/

def IMAGE_SIZEOF_SHORT_NAME : Nat := 8

def IMAGE_FILE_RELOCS_STRIPPED : Nat := 1
def IMAGE_FILE_LINE_NUMS_STRIPPED : Nat := 4
def IMAGE_FILE_MACHINE_AMD64 : Nat := 0x8664
def IMAGE_FILE_MACHINE_I386 : Nat := 0x014c
def IMAGE_FILE_32BIT_MACHINE : Nat := 256

def IMAGE_SCN_ALIGN_1BYTES : Nat := 0x100000
def IMAGE_SCN_ALIGN_2BYTES : Nat := 0x200000
def IMAGE_SCN_ALIGN_4BYTES : Nat := 0x300000
def IMAGE_SCN_ALIGN_8BYTES : Nat := 0x400000
def IMAGE_SCN_MEM_EXECUTE : Nat := 0x20000000
def IMAGE_SCN_MEM_READ : Nat := 0x40000000
def IMAGE_SCN_MEM_WRITE : Nat := 0x80000000
def IMAGE_SCN_CNT_CODE : Nat := 32

/-! ## The packed structs (`pe.cpp` lines 37-75) -/

/-- Struct `IMAGE_FILE_HEADER`; every field holds a value of its C++ width. -/
structure IMAGE_FILE_HEADER where
  Machine : Nat
  NumberOfSections : Nat
  TimeDateStamp : Nat
  PointerToSymbolTable : Nat
  NumberOfSymbols : Nat
  SizeOfOptionalHeader : Nat
  Characteristics : Nat

/-- Value of `sizeof(IMAGE_FILE_HEADER)` for the packed struct. -/
def sizeof_IMAGE_FILE_HEADER : Nat := 20

/-- The object representation of an `IMAGE_FILE_HEADER`. -/
def IMAGE_FILE_HEADER.bytes (h : IMAGE_FILE_HEADER) : List Nat :=
  le16 h.Machine ++ le16 h.NumberOfSections ++ le32 h.TimeDateStamp
    ++ le32 h.PointerToSymbolTable ++ le32 h.NumberOfSymbols
    ++ le16 h.SizeOfOptionalHeader ++ le16 h.Characteristics

/-- Struct `IMAGE_SECTION_HEADER`. `Name i` is the byte `Name[i]` of the
8-byte array; `VirtualSize` is the union member `Misc`. -/
structure IMAGE_SECTION_HEADER where
  Name : Nat → Nat
  VirtualSize : Nat
  VirtualAddress : Nat
  SizeOfRawData : Nat
  PointerToRawData : Nat
  PointerToRelocations : Nat
  PointerToLinenumbers : Nat
  NumberOfRelocations : Nat
  NumberOfLinenumbers : Nat
  Characteristics : Nat

/-- Value of `sizeof(IMAGE_SECTION_HEADER)` for the packed struct. -/
def sizeof_IMAGE_SECTION_HEADER : Nat := 40

/-- The eight bytes of the `Name` array. -/
def IMAGE_SECTION_HEADER.nameBytes (h : IMAGE_SECTION_HEADER) : List Nat :=
  [h.Name 0 % 256, h.Name 1 % 256, h.Name 2 % 256, h.Name 3 % 256,
   h.Name 4 % 256, h.Name 5 % 256, h.Name 6 % 256, h.Name 7 % 256]

/-- The object representation of an `IMAGE_SECTION_HEADER`. -/
def IMAGE_SECTION_HEADER.bytes (h : IMAGE_SECTION_HEADER) : List Nat :=
  h.nameBytes ++ le32 h.VirtualSize ++ le32 h.VirtualAddress
    ++ le32 h.SizeOfRawData ++ le32 h.PointerToRawData
    ++ le32 h.PointerToRelocations ++ le32 h.PointerToLinenumbers
    ++ le16 h.NumberOfRelocations ++ le16 h.NumberOfLinenumbers
    ++ le32 h.Characteristics

/-- Struct `IMAGE_SYMBOL`; `Short` and `Long` are `N.Name.Short` and
`N.Name.Long`, and `Type_` is the member `Type`. -/
structure IMAGE_SYMBOL where
  Short : Nat
  Long : Nat
  Value : Nat
  SectionNumber : Nat
  Type_ : Nat
  StorageClass : Nat
  NumberOfAuxSymbols : Nat

/-- Value of `sizeof(IMAGE_SYMBOL)` for the packed struct. -/
def sizeof_IMAGE_SYMBOL : Nat := 18

/-- The object representation of an `IMAGE_SYMBOL`. -/
def IMAGE_SYMBOL.bytes (s : IMAGE_SYMBOL) : List Nat :=
  le32 s.Short ++ le32 s.Long ++ le32 s.Value ++ le16 s.SectionNumber
    ++ le16 s.Type_ ++ [s.StorageClass % 256] ++ [s.NumberOfAuxSymbols % 256]

/-- Function `pad` (`pe.cpp` lines 77-81): `(n + (4 - 1)) & ~(4 - 1)` on
`unsigned`. The argument is converted to `unsigned`, the addition wraps
modulo `2^32`, and `~(4 - 1)` converted to `unsigned` is `0xFFFFFFFC`. -/
def pad (n : Nat) : Nat := u32 (u32 n + (4 - 1)) &&& 0xFFFFFFFC

/-! ## What `tools.h` provides -/

/-- Modelled from the spec: `tools.h` is not among the sources, so the two
`Platform` access-flag bits and the bytes that terminate a name in the string
table are taken as parameters. -/
structure Tools where
  Writable : Nat
  Executable : Nat
  terminator : List Nat

/-- Modelled from the spec: `SymbolInfo` of `tools.h`, an (address, name)
pair; the name is its byte sequence. -/
structure SymbolInfo where
  addr : Nat
  name : List Nat

/-- Modelled from the spec: `Buffer::write` of `tools.h`, which appends the
first `size` bytes of `d` to an append-only byte buffer. -/
def Buffer.write (b : List Nat) (d : List Nat) (size : Nat) : List Nat :=
  b ++ d.take size

/-- Modelled from the spec: `StringTable::add` of `tools.h`. Adding a name
appends its bytes, terminated as the format fixes, and returns the byte offset
at which the entry begins; nothing is deduplicated. -/
def StringTable.add (T : Tools) (strings : List Nat) (name : List Nat) :
    List Nat × Nat :=
  (strings ++ (name ++ T.terminator), strings.length)

/-- One line printed to the console by the writer. -/
inductive Message where
  | symbolTableStart (offset : Nat)
  | stringTableStart (offset : Nat)
  | sectionData (name : List Nat) (start stop : Nat)
  | unsupportedAlignment (alignment : Nat)
  deriving DecidableEq

/-- The output sink `out` and the console (`stdout` and `stderr`). -/
structure Streams where
  out : List Nat
  console : List Message

/-- Modelled from the spec: `OutputStream::writeChunk` of `tools.h`, which
appends `size` raw bytes to the sink and always succeeds. -/
def Streams.writeChunk (io : Streams) (d : List Nat) (size : Nat) : Streams :=
  { io with out := io.out ++ d.take size }

/-- Modelled from the spec: `OutputStream::writeRepeat` of `tools.h`, which
appends `count` repetitions of `byte` to the sink and always succeeds. -/
def Streams.writeRepeat (io : Streams) (byte : Nat) (count : Nat) : Streams :=
  { io with out := io.out ++ List.replicate count byte }

/-- The `printf` and `fprintf` calls of the writer. -/
def Streams.print (io : Streams) (m : Message) : Streams :=
  { io with console := io.console ++ [m] }

/-- The indeterminate initial contents of the two header members that live
on the stack of `writeObject`. -/
structure Uninit where
  fileHeader : IMAGE_FILE_HEADER
  sectionHeader : IMAGE_SECTION_HEADER

/-! ## `FileWriter` (`pe.cpp` lines 90-151) -/

/-- Class `WindowsPlatform::FileWriter`. -/
structure FileWriter where
  sectionCount : Nat
  symbolCount : Nat
  dataStart : Nat
  dataOffset : Nat
  header : IMAGE_FILE_HEADER
  strings : List Nat
  symbols : List Nat

/-- The constructor `FileWriter(machine, machineMask, symbolCount)`;
`uninit` is what the `header` member holds before the constructor body. -/
def FileWriter.new (uninit : IMAGE_FILE_HEADER) (machine machineMask symbolCount : Nat) :
    FileWriter :=
  { sectionCount := 0
    symbolCount := u32 symbolCount
    dataStart := sizeof_IMAGE_FILE_HEADER
    dataOffset := 0
    header :=
      { uninit with
        Machine := u16 machine
        TimeDateStamp := 0
        SizeOfOptionalHeader := 0
        Characteristics :=
          u16 (IMAGE_FILE_RELOCS_STRIPPED ||| IMAGE_FILE_LINE_NUMS_STRIPPED ||| machineMask) }
    strings := []
    symbols := [] }

/-- Method `FileWriter::writeHeader`. -/
def FileWriter.writeHeader (f : FileWriter) (io : Streams) : FileWriter × Streams :=
  let header1 :=
    { f.header with
      NumberOfSections := u16 f.sectionCount
      PointerToSymbolTable := u32 (f.dataStart + f.dataOffset) }
  let io1 := io.print (Message.symbolTableStart header1.PointerToSymbolTable)
  let dataOffset1 := pad (f.dataOffset + f.symbolCount * sizeof_IMAGE_SYMBOL)
  let io2 := io1.print (Message.stringTableStart (u32 (f.dataStart + dataOffset1)))
  let header2 := { header1 with NumberOfSymbols := f.symbolCount }
  ({ f with dataOffset := dataOffset1, header := header2 },
   io2.writeChunk header2.bytes sizeof_IMAGE_FILE_HEADER)

/-- The `IMAGE_SYMBOL` that `FileWriter::addSymbol` builds (`pe.cpp` lines
133-141) from the offset `nameOffset` returned by the string table. -/
def symbolRecord (nameOffset addr sectionNumber type storageClass : Nat) : IMAGE_SYMBOL :=
  { Short := 0
    Long := u32 (nameOffset + 4)
    Value := u32 addr
    SectionNumber := u16 sectionNumber
    Type_ := u16 type
    StorageClass := u8 storageClass
    NumberOfAuxSymbols := 0 }

/-- Method `FileWriter::addSymbol`. -/
def FileWriter.addSymbol (T : Tools) (f : FileWriter) (name : List Nat)
    (addr sectionNumber type storageClass : Nat) : FileWriter :=
  let r := StringTable.add T f.strings name
  let nameOffset := u32 r.2
  let symbol := symbolRecord nameOffset addr sectionNumber type storageClass
  { f with strings := r.1, symbols := Buffer.write f.symbols symbol.bytes sizeof_IMAGE_SYMBOL }

/-- Method `FileWriter::writeData`. -/
def FileWriter.writeData (f : FileWriter) (io : Streams) : Streams :=
  let io1 := io.writeChunk f.symbols f.symbols.length
  let size := u32 (f.strings.length + 4)
  let io2 := io1.writeChunk (le32 size) 4
  io2.writeChunk f.strings f.strings.length

/-! ## `SectionWriter` (`pe.cpp` lines 153-201) -/

/-- Class `WindowsPlatform::SectionWriter`; the `file` reference is passed
to each method as an argument. -/
structure SectionWriter where
  header : IMAGE_SECTION_HEADER
  dataSize : Nat
  finalSize : Nat
  data : List Nat
  dataOffset : Nat

/-- Function `strcpy` into the 8-byte `Name` array: the characters of `src`
followed by a terminating zero; the bytes after the terminator keep what they
held. This is the copy for a name that fits the array with its terminator
(`src.length + 1 <= 8`), as every name `writeObject` passes does; for a longer
name the C++ copy runs past the array and its behaviour is undefined, which
`SectionWriter.construct` records. -/
def strcpy (dst : Nat → Nat) (src : List Nat) : Nat → Nat :=
  fun i => if i < src.length then src.getD i 0 else if i = src.length then 0 else dst i

/-- The constructor `SectionWriter(file, name, sectionMask, data, dataSize)`:
it returns the new section writer and the file writer it updated. `uninit` is
what the `header` member holds before the constructor body. -/
def SectionWriter.new (uninit : IMAGE_SECTION_HEADER) (file : FileWriter) (name : List Nat)
    (sectionMask : Nat) (data : List Nat) (dataSize : Nat) : SectionWriter × FileWriter :=
  let finalSize := pad dataSize
  let file1 := { file with sectionCount := u32 (file.sectionCount + 1) }
  let file2 := { file1 with dataStart := u32 (file1.dataStart + sizeof_IMAGE_SECTION_HEADER) }
  let header1 :=
    { uninit with
      Name := strcpy uninit.Name name
      VirtualSize := 0
      SizeOfRawData := u32 finalSize }
  let dataOffset := file2.dataOffset
  let file3 := { file2 with dataOffset := u32 (file2.dataOffset + finalSize) }
  let header2 :=
    { header1 with
      PointerToRelocations := 0
      PointerToLinenumbers := 0
      NumberOfRelocations := 0
      NumberOfLinenumbers := 0
      Characteristics := u32 sectionMask }
  ({ header := header2, dataSize := dataSize, finalSize := finalSize, data := data,
     dataOffset := dataOffset }, file3)

/-- Method `SectionWriter::writeHeader`. -/
def SectionWriter.writeHeader (s : SectionWriter) (file : FileWriter) (io : Streams) :
    SectionWriter × Streams :=
  let header1 := { s.header with PointerToRawData := u32 (s.dataOffset + file.dataStart) }
  let io1 := io.print (Message.sectionData header1.nameBytes header1.PointerToRawData
    (u32 (header1.PointerToRawData + header1.SizeOfRawData)))
  ({ s with header := header1 }, io1.writeChunk header1.bytes sizeof_IMAGE_SECTION_HEADER)

/-- Method `SectionWriter::writeData`. -/
def SectionWriter.writeData (s : SectionWriter) (io : Streams) : Streams :=
  let io1 := io.writeChunk s.data s.dataSize
  io1.writeRepeat 0 (subSize s.finalSize s.dataSize)

/-! ## `writeObject` (`pe.cpp` lines 203-272) -/

/-- The section name `.rwx`. -/
def name_rwx : List Nat := [46, 114, 119, 120]

/-- The section name `.data`. -/
def name_data : List Nat := [46, 100, 97, 116, 97]

/-- The section name `.text`. -/
def name_text : List Nat := [46, 116, 101, 120, 116]

/-- The symbol loop of `writeObject` (`pe.cpp` lines 260-262). -/
def addSymbols (T : Tools) (file : FileWriter) : List SymbolInfo → FileWriter
  | [] => file
  | sym :: rest => addSymbols T (file.addSymbol T sym.name sym.addr 1 0 2) rest

/-- The machine selection of `writeObject` (`pe.cpp` lines 205-214): the
pair (`machine`, `machineMask`). -/
def machineOf (BytesPerWord : Nat) : Nat × Nat :=
  if BytesPerWord = 8 then (IMAGE_FILE_MACHINE_AMD64, 0)
  else (IMAGE_FILE_MACHINE_I386, IMAGE_FILE_32BIT_MACHINE)

/-- The alignment switch of `writeObject` (`pe.cpp` lines 216-234): `none` is
the `default:` branch. -/
def alignmentMask (alignment : Nat) : Option Nat :=
  if alignment = 0 ∨ alignment = 1 then some IMAGE_SCN_ALIGN_1BYTES
  else if alignment = 2 then some IMAGE_SCN_ALIGN_2BYTES
  else if alignment = 4 then some IMAGE_SCN_ALIGN_4BYTES
  else if alignment = 8 then some IMAGE_SCN_ALIGN_8BYTES
  else none

/-- The access-flag mapping of `writeObject` (`pe.cpp` lines 238-252): the
pair (`sectionName`, `sectionMask`) chosen from `accessFlags`, given the
`sectionMask` computed so far. -/
def sectionChoice (T : Tools) (accessFlags sectionMask : Nat) : List Nat × Nat :=
  if accessFlags &&& T.Writable ≠ 0 then
    if accessFlags &&& T.Executable ≠ 0 then
      (name_rwx, sectionMask |||
        (IMAGE_SCN_MEM_WRITE ||| IMAGE_SCN_MEM_EXECUTE ||| IMAGE_SCN_CNT_CODE))
    else
      (name_data, sectionMask ||| IMAGE_SCN_MEM_WRITE)
  else
    (name_text, sectionMask ||| (IMAGE_SCN_MEM_EXECUTE ||| IMAGE_SCN_CNT_CODE))

/-- Method `WindowsPlatform<BytesPerWord>::writeObject`: the returned pair is
the `bool` result and the streams after the call. -/
def writeObject (BytesPerWord : Nat) (T : Tools) (stack : Uninit) (io : Streams)
    (symbols : List SymbolInfo) (data : List Nat) (accessFlags alignment : Nat) :
    Bool × Streams :=
  let machine := (machineOf BytesPerWord).1
  let machineMask := (machineOf BytesPerWord).2
  match alignmentMask alignment with
  | none => (false, io.print (Message.unsupportedAlignment alignment))
  | some sectionMask0 =>
    let sectionMask1 := sectionMask0 ||| IMAGE_SCN_MEM_READ
    let choice := sectionChoice T accessFlags sectionMask1
    let file0 := FileWriter.new stack.fileHeader machine machineMask symbols.length
    let r1 := SectionWriter.new stack.sectionHeader file0 choice.1 choice.2 data data.length
    let r2 := r1.2.writeHeader io
    let file3 := addSymbols T r2.1 symbols
    let r3 := r1.1.writeHeader file3 r2.2
    let io3 := r3.1.writeData r3.2
    let io4 := file3.writeData io3
    (true, io4)

/-- The bytes one call of `writeObject` appends to the output sink. -/
def emitted (BytesPerWord : Nat) (T : Tools) (stack : Uninit) (io : Streams)
    (symbols : List SymbolInfo) (data : List Nat) (accessFlags alignment : Nat) : List Nat :=
  (writeObject BytesPerWord T stack io symbols data accessFlags alignment).2.out.drop
    io.out.length

/-! ## Sample inputs -/

/-- Sample `tools.h` parameters: `Writable` and `Executable` as the two low
bits, names terminated by one zero byte. -/
def sampleTools : Tools := { Writable := 1, Executable := 2, terminator := [0] }

/-- Sample stack contents: every indeterminate byte holds `0xCC`. -/
def sampleStack : Uninit :=
  { fileHeader :=
      { Machine := 0xCCCC, NumberOfSections := 0xCCCC, TimeDateStamp := 0xCCCCCCCC,
        PointerToSymbolTable := 0xCCCCCCCC, NumberOfSymbols := 0xCCCCCCCC,
        SizeOfOptionalHeader := 0xCCCC, Characteristics := 0xCCCC }
    sectionHeader :=
      { Name := fun _ => 0xCC, VirtualSize := 0xCCCCCCCC, VirtualAddress := 0xCCCCCCCC,
        SizeOfRawData := 0xCCCCCCCC, PointerToRawData := 0xCCCCCCCC,
        PointerToRelocations := 0xCCCCCCCC, PointerToLinenumbers := 0xCCCCCCCC,
        NumberOfRelocations := 0xCCCC, NumberOfLinenumbers := 0xCCCC,
        Characteristics := 0xCCCCCCCC } }

/-- An empty sink and an empty console. -/
def emptyStreams : Streams := { out := [], console := [] }

/-- The name `_start`. -/
def name_start : List Nat := [95, 115, 116, 97, 114, 116]

/-- One symbol `_start` at address 0. -/
def sampleSymbols : List SymbolInfo := [{ addr := 0, name := name_start }]

/-- A four-byte payload. -/
def samplePayload : List Nat := [0x31, 0xC0, 0xC3, 0x90]

/-- One symbol whose name has 4294967291 bytes, so that its string-table
entry (name and terminating zero) has `2^32 - 4` bytes. -/
def hugeNameSymbols : List SymbolInfo :=
  [{ addr := 0, name := List.replicate 4294967291 65 }]

/-- A payload of `2^32 - 1` bytes. -/
def hugePayload : List Nat := List.replicate 4294967295 0

/-- Two symbols: one whose name has 4294967291 bytes, then the symbol `b`;
the string-table entry of `b` begins at offset `2^32 - 4`. -/
def wrapSymbols : List SymbolInfo :=
  [{ addr := 0, name := List.replicate 4294967291 65 }, { addr := 0, name := [98] }]

/-! ## Closed forms of what the writer builds

The definitions below name the values the step-by-step embedding above arrives
at; the lemmas of the next section prove that it does. -/

/-- The string table after the symbol loop: one entry per symbol, in order. -/
def stringTable (T : Tools) : List SymbolInfo → List Nat
  | [] => []
  | sym :: rest => (sym.name ++ T.terminator) ++ stringTable T rest

/-- The records the symbol loop builds, in order, when the string table holds
`base` bytes before the loop. -/
def symbolRecords (T : Tools) (base : Nat) : List SymbolInfo → List IMAGE_SYMBOL
  | [] => []
  | sym :: rest =>
    symbolRecord (u32 base) sym.addr 1 0 2
      :: symbolRecords T (base + (sym.name ++ T.terminator).length) rest

/-- The object representations of a list of records, one after the other. -/
def symbolBytes : List IMAGE_SYMBOL → List Nat
  | [] => []
  | r :: rest => r.bytes ++ symbolBytes rest

/-- The file header `writeObject` serializes for a symbol list of
`symbolCount` entries and a payload of `dataSize` bytes. -/
def fileHeaderOf (BytesPerWord symbolCount dataSize : Nat) : IMAGE_FILE_HEADER :=
  { Machine := u16 (machineOf BytesPerWord).1
    NumberOfSections := 1
    TimeDateStamp := 0
    PointerToSymbolTable := u32 (60 + pad dataSize)
    NumberOfSymbols := u32 symbolCount
    SizeOfOptionalHeader := 0
    Characteristics :=
      u16 (IMAGE_FILE_RELOCS_STRIPPED ||| IMAGE_FILE_LINE_NUMS_STRIPPED |||
        (machineOf BytesPerWord).2) }

/-- The section header `writeObject` serializes when the alignment switch
yields `sectionMask0`. -/
def sectionHeaderOf (T : Tools) (uninit : IMAGE_SECTION_HEADER)
    (accessFlags sectionMask0 dataSize : Nat) : IMAGE_SECTION_HEADER :=
  { Name := strcpy uninit.Name (sectionChoice T accessFlags (sectionMask0 ||| IMAGE_SCN_MEM_READ)).1
    VirtualSize := 0
    VirtualAddress := uninit.VirtualAddress
    SizeOfRawData := pad dataSize
    PointerToRawData := 60
    PointerToRelocations := 0
    PointerToLinenumbers := 0
    NumberOfRelocations := 0
    NumberOfLinenumbers := 0
    Characteristics :=
      u32 (sectionChoice T accessFlags (sectionMask0 ||| IMAGE_SCN_MEM_READ)).2 }

/-! ## More sample inputs -/

/-- Stack contents whose indeterminate bytes all happen to be zero. -/
def zeroStack : Uninit :=
  { fileHeader :=
      { Machine := 0, NumberOfSections := 0, TimeDateStamp := 0, PointerToSymbolTable := 0,
        NumberOfSymbols := 0, SizeOfOptionalHeader := 0, Characteristics := 0 }
    sectionHeader :=
      { Name := fun _ => 0, VirtualSize := 0, VirtualAddress := 0, SizeOfRawData := 0,
        PointerToRawData := 0, PointerToRelocations := 0, PointerToLinenumbers := 0,
        NumberOfRelocations := 0, NumberOfLinenumbers := 0, Characteristics := 0 } }

/-- A symbol list of `2^32` entries, each with an empty name at address 0. -/
def manySymbols : List SymbolInfo := List.replicate 4294967296 { addr := 0, name := [] }

/-- The 40 bytes `SectionWriter::writeHeader` appends to an empty sink. -/
def serializedSectionHeader (s : SectionWriter) (file : FileWriter) : List Nat :=
  (s.writeHeader file emptyStreams).2.out

/-- A fresh file writer for the 64-bit machine and one symbol. -/
def sampleFile : FileWriter :=
  FileWriter.new sampleStack.fileHeader IMAGE_FILE_MACHINE_AMD64 0 1

/-- A `.text` section writer for the sample payload, constructed on
`sampleFile` over the sample stack, and the file writer it updated. -/
def sampleSection : SectionWriter × FileWriter :=
  SectionWriter.new sampleStack.sectionHeader sampleFile name_text 0x60100020 samplePayload
    samplePayload.length

/-- The same construction over a stack that happens to hold zeros. -/
def zeroSection : SectionWriter × FileWriter :=
  SectionWriter.new zeroStack.sectionHeader sampleFile name_text 0x60100020 samplePayload
    samplePayload.length

/-- A section writer constructed on `sampleFile` for the payload of
`2^32 - 1` bytes. -/
def hugeSection : SectionWriter × FileWriter :=
  SectionWriter.new sampleStack.sectionHeader sampleFile name_text 0x60100020 hugePayload
    hugePayload.length

/-- Two symbols with the same name `_start`. -/
def twinSymbols : List SymbolInfo :=
  [{ addr := 0, name := name_start }, { addr := 4, name := name_start }]

/-! ## Several sections on one file writer -/

/-- The arguments of one `SectionWriter` constructor call, together with the
indeterminate contents of the `header` member of the object constructed. -/
structure SectionArgs where
  uninit : IMAGE_SECTION_HEADER
  name : List Nat
  sectionMask : Nat
  data : List Nat

/-- The constructor `SectionWriter(...)` with the precondition of its
`strcpy`: `none` when the name and its terminating zero do not fit the 8-byte
`Name` array, in which case the copy runs past the array and the behaviour of
the C++ constructor is undefined. -/
def SectionWriter.construct (uninit : IMAGE_SECTION_HEADER) (file : FileWriter)
    (name : List Nat) (sectionMask : Nat) (data : List Nat) (dataSize : Nat) :
    Option (SectionWriter × FileWriter) :=
  if name.length + 1 ≤ IMAGE_SIZEOF_SHORT_NAME then
    some (SectionWriter.new uninit file name sectionMask data dataSize)
  else none

/-- Section writers constructed one after the other on a file writer: the
writers in construction order and the file writer after the last
construction; `none` when one of the constructions is undefined. -/
def constructSections (file : FileWriter) :
    List SectionArgs → Option (List SectionWriter × FileWriter)
  | [] => some ([], file)
  | a :: rest =>
    match SectionWriter.construct a.uninit file a.name a.sectionMask a.data a.data.length with
    | none => none
    | some r =>
      match constructSections r.2 rest with
      | none => none
      | some rs => some (r.1 :: rs.1, rs.2)

/-- The sum of `pad(payloadLength)` over a list of sections. -/
def paddedSize : List SectionArgs → Nat
  | [] => 0
  | a :: rest => pad a.data.length + paddedSize rest

/-- One operation on a file writer. -/
inductive FileOp where
  | register (a : SectionArgs)
  | addSymbol (name : List Nat) (addr sectionNumber type storageClass : Nat)
  | writeHeader
  | writeData

/-- The effect of one operation on the file writer and the streams. -/
def FileWriter.step (T : Tools) (s : FileWriter × Streams) : FileOp → FileWriter × Streams
  | FileOp.register a =>
    ((SectionWriter.new a.uninit s.1 a.name a.sectionMask a.data a.data.length).2, s.2)
  | FileOp.addSymbol name addr sectionNumber type storageClass =>
    (s.1.addSymbol T name addr sectionNumber type storageClass, s.2)
  | FileOp.writeHeader => s.1.writeHeader s.2
  | FileOp.writeData => (s.1, s.1.writeData s.2)

/-- The sum of `pad(payloadLength)` over the sections a sequence of operations
registers. -/
def registeredSize : List FileOp → Nat
  | [] => 0
  | FileOp.register a :: rest => pad a.data.length + registeredSize rest
  | _ :: rest => registeredSize rest

/-- A section name of 52 characters. -/
def longName : List Nat := List.replicate 40 65 ++ [65, 65, 66, 66, 67, 67, 68, 68, 69, 69, 70, 70]

/-- The arguments of a section with the 52-character name and the sample
payload. -/
def longArgs : SectionArgs :=
  { uninit := sampleStack.sectionHeader, name := longName, sectionMask := 0x60100020,
    data := samplePayload }

theorem land_mask (x : Nat) (hx : x < 4294967296) : x &&& 0xFFFFFFFC = x - x % 4 := by
  apply Nat.eq_of_testBit_eq
  intro i
  have h1 : (0xFFFFFFFC : Nat) = (2 ^ 30 - 1) <<< 2 := by decide
  have h2 : x - x % 4 = (x >>> 2) <<< 2 := by
    simp only [Nat.shiftLeft_eq, Nat.shiftRight_eq_div_pow]
    omega
  rw [h2, Nat.testBit_land, h1]
  simp only [Nat.testBit_shiftLeft, Nat.testBit_shiftRight, Nat.testBit_two_pow_sub_one]
  by_cases hi : 2 ≤ i
  · have h4 : 2 + (i - 2) = i := by omega
    by_cases h3 : i - 2 < 30
    · simp [hi, h3]
    · have h5 : x.testBit i = false := by
        apply Nat.testBit_lt_two_pow
        calc x < 2 ^ 32 := hx
          _ ≤ 2 ^ i := Nat.pow_le_pow_right (by decide) (by omega)
      simp [hi, h3, h4, h5]
  · simp [hi]

theorem u32_lt (n : Nat) : u32 n < 4294967296 := Nat.mod_lt _ (by decide)

theorem u32_of_lt {n : Nat} (h : n < 4294967296) : u32 n = n := Nat.mod_eq_of_lt h

theorem pad_eq (n : Nat) : pad n = u32 (u32 n + 3) - u32 (u32 n + 3) % 4 := by
  unfold pad
  exact land_mask _ (u32_lt _)

theorem pad_lt (n : Nat) : pad n < 4294967296 := by
  rw [pad_eq]
  have := u32_lt (u32 n + 3)
  omega

theorem pad_mod_four (n : Nat) : pad n % 4 = 0 := by
  rw [pad_eq]
  omega

/-- Without wrap-around `pad` rounds up to the next multiple of four. -/
theorem pad_of_lt {n : Nat} (h : n + 3 < 4294967296) : pad n = (n + 3) / 4 * 4 := by
  rw [pad_eq]
  have h1 : u32 n = n := u32_of_lt (by omega)
  have h2 : u32 (n + 3) = n + 3 := u32_of_lt h
  rw [h1, h2]
  omega

theorem le16_length (n : Nat) : (le16 n).length = 2 := rfl

theorem le32_length (n : Nat) : (le32 n).length = 4 := rfl

theorem fileHeader_bytes_length (h : IMAGE_FILE_HEADER) : h.bytes.length = 20 := rfl

theorem sectionHeader_bytes_length (h : IMAGE_SECTION_HEADER) : h.bytes.length = 40 := rfl

theorem symbol_bytes_length (s : IMAGE_SYMBOL) : s.bytes.length = 18 := rfl

theorem readU32_append_left (a b : List Nat) (off : Nat) (h : off + 4 ≤ a.length) :
    readU32 (a ++ b) off = readU32 a off := by
  unfold readU32
  rw [List.getD_append _ _ _ _ (by omega), List.getD_append _ _ _ _ (by omega),
    List.getD_append _ _ _ _ (by omega), List.getD_append _ _ _ _ (by omega)]

theorem readU32_append_right (a b : List Nat) (off : Nat) (h : a.length ≤ off) :
    readU32 (a ++ b) off = readU32 b (off - a.length) := by
  unfold readU32
  rw [List.getD_append_right _ _ _ _ h, List.getD_append_right _ _ _ _ (by omega),
    List.getD_append_right _ _ _ _ (by omega), List.getD_append_right _ _ _ _ (by omega)]
  have e1 : off + 1 - a.length = off - a.length + 1 := by omega
  have e2 : off + 2 - a.length = off - a.length + 2 := by omega
  have e3 : off + 3 - a.length = off - a.length + 3 := by omega
  rw [e1, e2, e3]

theorem readU16_append_left (a b : List Nat) (off : Nat) (h : off + 2 ≤ a.length) :
    readU16 (a ++ b) off = readU16 a off := by
  unfold readU16
  rw [List.getD_append _ _ _ _ (by omega), List.getD_append _ _ _ _ (by omega)]

theorem readU16_append_right (a b : List Nat) (off : Nat) (h : a.length ≤ off) :
    readU16 (a ++ b) off = readU16 b (off - a.length) := by
  unfold readU16
  rw [List.getD_append_right _ _ _ _ h, List.getD_append_right _ _ _ _ (by omega)]
  have e1 : off + 1 - a.length = off - a.length + 1 := by omega
  rw [e1]

theorem readU32_le32 (x : Nat) (rest : List Nat) : readU32 (le32 x ++ rest) 0 = u32 x := by
  simp only [readU32, le32, u32, List.cons_append, List.getD_cons_zero, List.getD_cons_succ]
  omega

theorem readU16_le16 (x : Nat) (rest : List Nat) : readU16 (le16 x ++ rest) 0 = u16 x := by
  simp only [readU16, le16, u16, List.cons_append, List.getD_cons_zero, List.getD_cons_succ]
  omega

/-! ## Lemmas: the symbol loop -/

theorem addSymbol_strings (T : Tools) (f : FileWriter) (name : List Nat) (a b c d : Nat) :
    (f.addSymbol T name a b c d).strings = f.strings ++ (name ++ T.terminator) := rfl

theorem addSymbol_symbols (T : Tools) (f : FileWriter) (name : List Nat) (a b c d : Nat) :
    (f.addSymbol T name a b c d).symbols
      = f.symbols ++ (symbolRecord (u32 f.strings.length) a b c d).bytes := by
  simp only [FileWriter.addSymbol, StringTable.add, Buffer.write]
  rw [List.take_of_length_le (by rw [symbol_bytes_length]; decide)]

theorem addSymbols_strings (T : Tools) (symbols : List SymbolInfo) (f : FileWriter) :
    (addSymbols T f symbols).strings = f.strings ++ stringTable T symbols := by
  induction symbols generalizing f with
  | nil => simp [addSymbols, stringTable]
  | cons sym rest ih =>
    simp only [addSymbols, stringTable]
    rw [ih, addSymbol_strings, List.append_assoc]

theorem addSymbols_symbols (T : Tools) (symbols : List SymbolInfo) (f : FileWriter) :
    (addSymbols T f symbols).symbols
      = f.symbols ++ symbolBytes (symbolRecords T f.strings.length symbols) := by
  induction symbols generalizing f with
  | nil => simp [addSymbols, symbolRecords, symbolBytes]
  | cons sym rest ih =>
    simp only [addSymbols, symbolRecords, symbolBytes]
    rw [ih, addSymbol_symbols, addSymbol_strings, List.length_append, List.append_assoc]

theorem addSymbols_frame (T : Tools) (symbols : List SymbolInfo) (f : FileWriter) :
    (addSymbols T f symbols).sectionCount = f.sectionCount
      ∧ (addSymbols T f symbols).symbolCount = f.symbolCount
      ∧ (addSymbols T f symbols).dataStart = f.dataStart
      ∧ (addSymbols T f symbols).dataOffset = f.dataOffset
      ∧ (addSymbols T f symbols).header = f.header := by
  induction symbols generalizing f with
  | nil => simp [addSymbols]
  | cons sym rest ih =>
    simp only [addSymbols]
    rw [(ih _).1, (ih _).2.1, (ih _).2.2.1, (ih _).2.2.2.1, (ih _).2.2.2.2]
    simp [FileWriter.addSymbol]

theorem symbolRecords_length (T : Tools) (symbols : List SymbolInfo) (base : Nat) :
    (symbolRecords T base symbols).length = symbols.length := by
  induction symbols generalizing base with
  | nil => rfl
  | cons sym rest ih => simp [symbolRecords, ih]

theorem symbolBytes_length (rs : List IMAGE_SYMBOL) : (symbolBytes rs).length = 18 * rs.length := by
  induction rs with
  | nil => rfl
  | cons r rest ih =>
    simp only [symbolBytes, List.length_append, List.length_cons, ih, symbol_bytes_length]
    omega

/-! ## Lemmas: the bytes `writeObject` emits -/

theorem alignmentMask_isSome {alignment : Nat}
    (ha : alignment = 0 ∨ alignment = 1 ∨ alignment = 2 ∨ alignment = 4 ∨ alignment = 8) :
    ∃ m, alignmentMask alignment = some m := by
  rcases ha with h | h | h | h | h <;> subst h <;> simp [alignmentMask]

/-- The sink after an accepted call: the bytes it held, followed by the two
headers, the padded payload, the symbol records, the length field and the
string table. -/
theorem writeObject_out (BytesPerWord : Nat) (T : Tools) (stack : Uninit) (io : Streams)
    (symbols : List SymbolInfo) (data : List Nat) (accessFlags alignment m : Nat)
    (hm : alignmentMask alignment = some m) :
    writeObject BytesPerWord T stack io symbols data accessFlags alignment
      = (true,
          { out := io.out ++ ((fileHeaderOf BytesPerWord symbols.length data.length).bytes
              ++ ((sectionHeaderOf T stack.sectionHeader accessFlags m data.length).bytes
              ++ (data
              ++ (List.replicate (subSize (pad data.length) data.length) 0
              ++ (symbolBytes (symbolRecords T 0 symbols)
              ++ (le32 (u32 ((stringTable T symbols).length + 4))
              ++ stringTable T symbols))))))
            console := io.console ++
              [Message.symbolTableStart (u32 (60 + pad data.length)),
               Message.stringTableStart
                 (u32 (60 + pad (pad data.length + u32 symbols.length * 18))),
               Message.sectionData
                 (sectionHeaderOf T stack.sectionHeader accessFlags m data.length).nameBytes 60
                 (u32 (60 + pad data.length))] }) := by
  have hp := pad_lt data.length
  have h60 : u32 (20 + 40) = 60 := by decide
  have hpp : u32 (0 + pad data.length) = pad data.length := by
    rw [Nat.zero_add]; exact u32_of_lt hp
  have hpp2 : u32 (pad data.length) = pad data.length := u32_of_lt hp
  simp only [writeObject, hm, FileWriter.new, SectionWriter.new, FileWriter.writeHeader,
    SectionWriter.writeHeader, SectionWriter.writeData, FileWriter.writeData,
    Streams.writeChunk, Streams.writeRepeat, Streams.print, sizeof_IMAGE_FILE_HEADER,
    sizeof_IMAGE_SECTION_HEADER, sizeof_IMAGE_SYMBOL, addSymbols_strings, addSymbols_symbols,
    (addSymbols_frame _ _ _).2.2.1, List.take_length, List.nil_append, List.length_nil,
    h60, hpp, hpp2]
  have t20 : ∀ h : IMAGE_FILE_HEADER, List.take 20 h.bytes = h.bytes :=
    fun h => List.take_of_length_le (by rw [fileHeader_bytes_length])
  have t40 : ∀ h : IMAGE_SECTION_HEADER, List.take 40 h.bytes = h.bytes :=
    fun h => List.take_of_length_le (by rw [sectionHeader_bytes_length])
  have t4 : ∀ x : Nat, List.take 4 (le32 x) = le32 x :=
    fun x => List.take_of_length_le (by rw [le32_length])
  have h1 : u16 (u32 (0 + 1)) = 1 := by decide
  simp only [t20, t40, t4, h1, fileHeaderOf, sectionHeaderOf, List.append_assoc,
    List.cons_append, List.nil_append]

theorem alignmentMask_eq_none {alignment : Nat}
    (ha : ¬ (alignment = 0 ∨ alignment = 1 ∨ alignment = 2 ∨ alignment = 4 ∨ alignment = 8)) :
    alignmentMask alignment = none := by
  simp only [not_or] at ha
  obtain ⟨h0, h1, h2, h4, h8⟩ := ha
  simp [alignmentMask, h0, h1, h2, h4, h8]

/-- The bytes an accepted call appends. -/
theorem emitted_eq (BytesPerWord : Nat) (T : Tools) (stack : Uninit) (io : Streams)
    (symbols : List SymbolInfo) (data : List Nat) (accessFlags alignment m : Nat)
    (hm : alignmentMask alignment = some m) :
    emitted BytesPerWord T stack io symbols data accessFlags alignment
      = (fileHeaderOf BytesPerWord symbols.length data.length).bytes
          ++ ((sectionHeaderOf T stack.sectionHeader accessFlags m data.length).bytes
          ++ (data
          ++ (List.replicate (subSize (pad data.length) data.length) 0
          ++ (symbolBytes (symbolRecords T 0 symbols)
          ++ (le32 (u32 ((stringTable T symbols).length + 4))
          ++ stringTable T symbols))))) := by
  unfold emitted
  rw [writeObject_out BytesPerWord T stack io symbols data accessFlags alignment m hm]
  exact List.drop_left _ _

/-- The record of the `i`-th symbol: its name offset is the length of the
string-table entries of the symbols before it. -/
theorem symbolRecords_getElem? (T : Tools) (symbols : List SymbolInfo) (base i : Nat) :
    (symbolRecords T base symbols)[i]?
      = (symbols[i]?).map (fun sym =>
          symbolRecord (u32 (base + (stringTable T (symbols.take i)).length)) sym.addr 1 0 2) := by
  induction symbols generalizing base i with
  | nil => simp [symbolRecords]
  | cons sym rest ih =>
    cases i with
    | zero => simp [symbolRecords, stringTable]
    | succ j =>
      simp only [symbolRecords, List.getElem?_cons_succ, List.take_succ_cons, stringTable,
        List.length_append]
      rw [ih]
      simp only [List.length_append, Nat.add_assoc]

/-- Without wrap-around the zero fill is the ordinary difference. -/
theorem subSize_pad {n : Nat} (h : n + 3 < 4294967296) :
    subSize (pad n) n = pad n - n ∧ n ≤ pad n ∧ pad n - n ≤ 3 := by
  rw [pad_of_lt h]
  unfold subSize
  omega

/-! ## The claims -/

/-- C2: for every word width, symbol list, payload and `accessFlags`: when the
alignment is one of 0, 1, 2, 4, 8 `writeObject` returns true; for every other
alignment it returns false, the output sink is left exactly as it was (no byte
is written), and the console receives the diagnostic naming the value. -/
theorem writeObject_alignment_check (BytesPerWord : Nat) (T : Tools) (stack : Uninit)
    (io : Streams) (symbols : List SymbolInfo) (data : List Nat) (accessFlags alignment : Nat) :
    ((alignment = 0 ∨ alignment = 1 ∨ alignment = 2 ∨ alignment = 4 ∨ alignment = 8) →
      (writeObject BytesPerWord T stack io symbols data accessFlags alignment).1 = true)
    ∧ (¬ (alignment = 0 ∨ alignment = 1 ∨ alignment = 2 ∨ alignment = 4 ∨ alignment = 8) →
      (writeObject BytesPerWord T stack io symbols data accessFlags alignment).1 = false
      ∧ (writeObject BytesPerWord T stack io symbols data accessFlags alignment).2.out = io.out
      ∧ emitted BytesPerWord T stack io symbols data accessFlags alignment = []
      ∧ (writeObject BytesPerWord T stack io symbols data accessFlags alignment).2.console
          = io.console ++ [Message.unsupportedAlignment alignment]) := by
  constructor
  · intro ha
    obtain ⟨m, hm⟩ := alignmentMask_isSome ha
    rw [writeObject_out BytesPerWord T stack io symbols data accessFlags alignment m hm]
  · intro ha
    have hn := alignmentMask_eq_none ha
    have hw : writeObject BytesPerWord T stack io symbols data accessFlags alignment
        = (false, io.print (Message.unsupportedAlignment alignment)) := by
      simp only [writeObject, hn]
    refine ⟨by rw [hw], by rw [hw]; rfl, ?_, by rw [hw]; rfl⟩
    unfold emitted
    rw [hw]
    simp [Streams.print]

/-- C2 at the sample input, once with alignment 1 and once with alignment 3. -/
theorem writeObject_alignment_check_witness :
    (writeObject 8 sampleTools sampleStack emptyStreams sampleSymbols samplePayload 2 1).1 = true
    ∧ ((writeObject 8 sampleTools sampleStack emptyStreams sampleSymbols samplePayload 2 3).1
          = false
      ∧ (writeObject 8 sampleTools sampleStack emptyStreams sampleSymbols samplePayload 2 3).2.out
          = emptyStreams.out
      ∧ emitted 8 sampleTools sampleStack emptyStreams sampleSymbols samplePayload 2 3 = []
      ∧ (writeObject 8 sampleTools sampleStack emptyStreams sampleSymbols samplePayload 2
            3).2.console
          = emptyStreams.console ++ [Message.unsupportedAlignment 3]) :=
  ⟨(writeObject_alignment_check 8 sampleTools sampleStack emptyStreams sampleSymbols
      samplePayload 2 1).1 (by decide),
   (writeObject_alignment_check 8 sampleTools sampleStack emptyStreams sampleSymbols
      samplePayload 2 3).2 (by decide)⟩

/-! ## Lemmas: reading the emitted bytes back -/

theorem getD_symbolBytes (rs : List IMAGE_SYMBOL) (rest : List Nat) (i k : Nat)
    (r : IMAGE_SYMBOL) (hr : rs[i]? = some r) (hk : k < 18) :
    (symbolBytes rs ++ rest).getD (18 * i + k) 0 = r.bytes.getD k 0 := by
  induction rs generalizing i with
  | nil => simp at hr
  | cons r0 rs ih =>
    cases i with
    | zero =>
      simp only [List.getElem?_cons_zero, Option.some.injEq] at hr
      subst hr
      simp only [symbolBytes, List.append_assoc, Nat.mul_zero, Nat.zero_add]
      exact List.getD_append _ _ _ _ (by rw [symbol_bytes_length]; exact hk)
    | succ j =>
      simp only [List.getElem?_cons_succ] at hr
      simp only [symbolBytes, List.append_assoc]
      rw [List.getD_append_right _ _ _ _ (by rw [symbol_bytes_length]; omega),
        symbol_bytes_length]
      have e : 18 * (j + 1) + k - 18 = 18 * j + k := by omega
      rw [e]
      exact ih j hr

theorem readU32_symbolBytes (rs : List IMAGE_SYMBOL) (rest : List Nat) (i k : Nat)
    (r : IMAGE_SYMBOL) (hr : rs[i]? = some r) (hk : k + 4 ≤ 18) :
    readU32 (symbolBytes rs ++ rest) (18 * i + k) = readU32 r.bytes k := by
  unfold readU32
  rw [getD_symbolBytes rs rest i k r hr (by omega),
    show 18 * i + k + 1 = 18 * i + (k + 1) from rfl,
    show 18 * i + k + 2 = 18 * i + (k + 2) from rfl,
    show 18 * i + k + 3 = 18 * i + (k + 3) from rfl,
    getD_symbolBytes rs rest i (k + 1) r hr (by omega),
    getD_symbolBytes rs rest i (k + 2) r hr (by omega),
    getD_symbolBytes rs rest i (k + 3) r hr (by omega)]

theorem readU32_symbol_long (r : IMAGE_SYMBOL) : readU32 r.bytes 4 = u32 r.Long := by
  have h : readU32 r.bytes 4 = r.Long % 256 + 256 * (r.Long / 256 % 256)
      + 65536 * (r.Long / 65536 % 256) + 16777216 * (r.Long / 16777216 % 256) := rfl
  rw [h]
  unfold u32
  omega

theorem readU32_fileHeader_symtab (h : IMAGE_FILE_HEADER) (rest : List Nat) :
    readU32 (h.bytes ++ rest) 8 = u32 h.PointerToSymbolTable := by
  have e : readU32 (h.bytes ++ rest) 8 = h.PointerToSymbolTable % 256
      + 256 * (h.PointerToSymbolTable / 256 % 256)
      + 65536 * (h.PointerToSymbolTable / 65536 % 256)
      + 16777216 * (h.PointerToSymbolTable / 16777216 % 256) := rfl
  rw [e]
  unfold u32
  omega

theorem readU32_fileHeader_symbolCount (h : IMAGE_FILE_HEADER) (rest : List Nat) :
    readU32 (h.bytes ++ rest) 12 = u32 h.NumberOfSymbols := by
  have e : readU32 (h.bytes ++ rest) 12 = h.NumberOfSymbols % 256
      + 256 * (h.NumberOfSymbols / 256 % 256)
      + 65536 * (h.NumberOfSymbols / 65536 % 256)
      + 16777216 * (h.NumberOfSymbols / 16777216 % 256) := rfl
  rw [e]
  unfold u32
  omega

/-- The bytes before the symbol table: the two headers and the padded
payload. -/
theorem emitted_split (BytesPerWord : Nat) (T : Tools) (stack : Uninit) (io : Streams)
    (symbols : List SymbolInfo) (data : List Nat) (accessFlags alignment m : Nat)
    (hm : alignmentMask alignment = some m) :
    ∃ front : List Nat,
      front.length = 60 + data.length + subSize (pad data.length) data.length
      ∧ emitted BytesPerWord T stack io symbols data accessFlags alignment
          = front ++ (symbolBytes (symbolRecords T 0 symbols)
              ++ (le32 (u32 ((stringTable T symbols).length + 4)) ++ stringTable T symbols)) := by
  refine ⟨(fileHeaderOf BytesPerWord symbols.length data.length).bytes
      ++ ((sectionHeaderOf T stack.sectionHeader accessFlags m data.length).bytes
      ++ (data ++ List.replicate (subSize (pad data.length) data.length) 0)), ?_, ?_⟩
  · simp only [List.length_append, fileHeader_bytes_length, sectionHeader_bytes_length,
      List.length_replicate]
    omega
  · rw [emitted_eq BytesPerWord T stack io symbols data accessFlags alignment m hm]
    simp only [List.append_assoc]

/-- The number of bytes an accepted call appends. -/
theorem emitted_length (BytesPerWord : Nat) (T : Tools) (stack : Uninit) (io : Streams)
    (symbols : List SymbolInfo) (data : List Nat) (accessFlags alignment m : Nat)
    (hm : alignmentMask alignment = some m) :
    (emitted BytesPerWord T stack io symbols data accessFlags alignment).length
      = 20 + 40 + (data.length + subSize (pad data.length) data.length)
          + 18 * symbols.length + 4 + (stringTable T symbols).length := by
  obtain ⟨front, hl, he⟩ :=
    emitted_split BytesPerWord T stack io symbols data accessFlags alignment m hm
  rw [he]
  simp only [List.length_append, hl, symbolBytes_length, symbolRecords_length, le32_length]
  omega

/-- The length field sits right after the last symbol record and holds the
string-table length plus 4, reduced to 32 bits. -/
theorem readU32_emitted_lengthField (BytesPerWord : Nat) (T : Tools) (stack : Uninit)
    (io : Streams) (symbols : List SymbolInfo) (data : List Nat)
    (accessFlags alignment m : Nat) (hm : alignmentMask alignment = some m) :
    readU32 (emitted BytesPerWord T stack io symbols data accessFlags alignment)
        (60 + data.length + subSize (pad data.length) data.length + 18 * symbols.length)
      = u32 ((stringTable T symbols).length + 4) := by
  obtain ⟨front, hl, he⟩ :=
    emitted_split BytesPerWord T stack io symbols data accessFlags alignment m hm
  rw [he, readU32_append_right _ _ _ (by omega), hl,
    readU32_append_right _ _ _ (by rw [symbolBytes_length, symbolRecords_length]; omega),
    symbolBytes_length, symbolRecords_length]
  have e : 60 + data.length + subSize (pad data.length) data.length + 18 * symbols.length
      - (60 + data.length + subSize (pad data.length) data.length) - 18 * symbols.length = 0 := by
    omega
  rw [e, readU32_le32, u32, u32, Nat.mod_mod]

/-- The name-offset field of the `i`-th emitted record. -/
theorem readU32_emitted_long (BytesPerWord : Nat) (T : Tools) (stack : Uninit)
    (io : Streams) (symbols : List SymbolInfo) (data : List Nat)
    (accessFlags alignment m : Nat) (hm : alignmentMask alignment = some m)
    (i : Nat) (hi : i < symbols.length) :
    readU32 (emitted BytesPerWord T stack io symbols data accessFlags alignment)
        (60 + data.length + subSize (pad data.length) data.length + 18 * i + 4)
      = u32 (u32 ((stringTable T (symbols.take i)).length) + 4) := by
  obtain ⟨front, hl, he⟩ :=
    emitted_split BytesPerWord T stack io symbols data accessFlags alignment m hm
  have hr := symbolRecords_getElem? T symbols 0 i
  rw [List.getElem?_eq_getElem hi, Option.map_some', Nat.zero_add] at hr
  rw [he, readU32_append_right _ _ _ (by omega), hl]
  have e : 60 + data.length + subSize (pad data.length) data.length + 18 * i + 4
      - (60 + data.length + subSize (pad data.length) data.length) = 18 * i + 4 := by omega
  rw [e, readU32_symbolBytes _ _ i 4 _ hr (by decide), readU32_symbol_long]
  simp only [symbolRecord, u32, Nat.mod_mod]

theorem readU32_emitted_symtab (BytesPerWord : Nat) (T : Tools) (stack : Uninit)
    (io : Streams) (symbols : List SymbolInfo) (data : List Nat)
    (accessFlags alignment m : Nat) (hm : alignmentMask alignment = some m) :
    readU32 (emitted BytesPerWord T stack io symbols data accessFlags alignment) 8
      = u32 (60 + pad data.length) := by
  rw [emitted_eq BytesPerWord T stack io symbols data accessFlags alignment m hm,
    readU32_fileHeader_symtab]
  simp only [fileHeaderOf, u32, Nat.mod_mod]

theorem readU32_emitted_symbolCount (BytesPerWord : Nat) (T : Tools) (stack : Uninit)
    (io : Streams) (symbols : List SymbolInfo) (data : List Nat)
    (accessFlags alignment m : Nat) (hm : alignmentMask alignment = some m) :
    readU32 (emitted BytesPerWord T stack io symbols data accessFlags alignment) 12
      = u32 symbols.length := by
  rw [emitted_eq BytesPerWord T stack io symbols data accessFlags alignment m hm,
    readU32_fileHeader_symbolCount]
  simp only [fileHeaderOf, u32, Nat.mod_mod]

/-- The layout counters of the file writer once the section is registered. -/
theorem SectionWriter_new_layout (uninit : IMAGE_SECTION_HEADER) (h0 : IMAGE_FILE_HEADER)
    (machine machineMask symbolCount : Nat) (name : List Nat) (mask : Nat) (data : List Nat) :
    (SectionWriter.new uninit (FileWriter.new h0 machine machineMask symbolCount) name mask
        data data.length).2.dataStart = 60
    ∧ (SectionWriter.new uninit (FileWriter.new h0 machine machineMask symbolCount) name mask
        data data.length).2.dataOffset = pad data.length
    ∧ (SectionWriter.new uninit (FileWriter.new h0 machine machineMask symbolCount) name mask
        data data.length).1.dataOffset = 0 := by
  refine ⟨rfl, ?_, rfl⟩
  simp only [SectionWriter.new, FileWriter.new, Nat.zero_add]
  exact u32_of_lt (pad_lt _)

/-- The string table of one symbol whose name is `n` copies of a byte, with
the sample terminator. -/
theorem stringTable_replicate_length (a n c : Nat) :
    (stringTable sampleTools [{ addr := a, name := List.replicate n c }]).length = n + 1 := by
  simp only [stringTable, sampleTools, List.length_append, List.length_replicate,
    List.length_cons, List.length_nil]

/-- C3, amended: for every accepted `writeObject` input whose payload length and
symbol count do not overflow 32-bit arithmetic and whose string-table length
plus 4 is below `2^32`, the `symbolTableOffset` field of the emitted file
header equals `dataStart + dataOffset` after the section is registered, which
is `20 + 40 + pad(payloadLength)`; the symbol records begin at that offset of
the emitted bytes; and the little-endian u32 at offset
`symbolTableOffset + 18 * symbolCount` is the string-table byte length plus 4. -/
theorem writeObject_symbol_table_offset (BytesPerWord : Nat) (T : Tools) (stack : Uninit)
    (io : Streams) (symbols : List SymbolInfo) (data : List Nat) (accessFlags alignment : Nat)
    (ha : alignment = 0 ∨ alignment = 1 ∨ alignment = 2 ∨ alignment = 4 ∨ alignment = 8)
    (hpay : data.length + 3 < 4294967296) (hoff : 60 + pad data.length < 4294967296)
    (hcount : symbols.length < 4294967296)
    (hstr : (stringTable T symbols).length + 4 < 4294967296) :
    (∀ (name : List Nat) (mask : Nat),
      readU32 (emitted BytesPerWord T stack io symbols data accessFlags alignment) 8
        = (SectionWriter.new stack.sectionHeader
            (FileWriter.new stack.fileHeader (machineOf BytesPerWord).1
              (machineOf BytesPerWord).2 symbols.length) name mask data data.length).2.dataStart
          + (SectionWriter.new stack.sectionHeader
            (FileWriter.new stack.fileHeader (machineOf BytesPerWord).1
              (machineOf BytesPerWord).2 symbols.length) name mask data data.length).2.dataOffset)
    ∧ readU32 (emitted BytesPerWord T stack io symbols data accessFlags alignment) 8
        = 20 + 40 + pad data.length
    ∧ readU32 (emitted BytesPerWord T stack io symbols data accessFlags alignment) 12
        = symbols.length
    ∧ (emitted BytesPerWord T stack io symbols data accessFlags alignment).drop
          (readU32 (emitted BytesPerWord T stack io symbols data accessFlags alignment) 8)
        = symbolBytes (symbolRecords T 0 symbols)
            ++ (le32 (u32 ((stringTable T symbols).length + 4)) ++ stringTable T symbols)
    ∧ readU32 (emitted BytesPerWord T stack io symbols data accessFlags alignment)
          (readU32 (emitted BytesPerWord T stack io symbols data accessFlags alignment) 8
            + 18 * readU32 (emitted BytesPerWord T stack io symbols data accessFlags alignment) 12)
        = (stringTable T symbols).length + 4 := by
  obtain ⟨m, hm⟩ := alignmentMask_isSome ha
  have h8 : readU32 (emitted BytesPerWord T stack io symbols data accessFlags alignment) 8
      = 60 + pad data.length := by
    rw [readU32_emitted_symtab BytesPerWord T stack io symbols data accessFlags alignment m hm]
    exact u32_of_lt hoff
  have h12 : readU32 (emitted BytesPerWord T stack io symbols data accessFlags alignment) 12
      = symbols.length := by
    rw [readU32_emitted_symbolCount BytesPerWord T stack io symbols data accessFlags alignment
      m hm]
    exact u32_of_lt hcount
  have hz := subSize_pad hpay
  have hfront : 60 + data.length + subSize (pad data.length) data.length
      = 60 + pad data.length := by omega
  refine ⟨?_, h8, h12, ?_, ?_⟩
  · intro name mask
    obtain ⟨h1, h2, _⟩ := SectionWriter_new_layout stack.sectionHeader stack.fileHeader
      (machineOf BytesPerWord).1 (machineOf BytesPerWord).2 symbols.length name mask data
    rw [h8, h1, h2]
  · obtain ⟨front, hl, he⟩ :=
      emitted_split BytesPerWord T stack io symbols data accessFlags alignment m hm
    rw [h8]
    rw [he]
    exact List.drop_left' (by rw [hl, hfront])
  · rw [h8, h12, ← hfront,
      readU32_emitted_lengthField BytesPerWord T stack io symbols data accessFlags alignment
        m hm]
    exact u32_of_lt hstr

/-- C3 as stated fails: with an empty payload and one symbol whose name has
4294967291 bytes, the payload length and the symbol count do not overflow, the
header fields are 60 and 1, yet the u32 at offset `60 + 18 * 1` is 0 while the
string-table byte length plus 4 is 4294967296. -/
theorem writeObject_symbol_table_offset_counterexample :
    (1 = 0 ∨ 1 = 1 ∨ 1 = 2 ∨ 1 = 4 ∨ 1 = 8)
    ∧ ([] : List Nat).length + 3 < 4294967296
    ∧ 60 + pad ([] : List Nat).length < 4294967296
    ∧ hugeNameSymbols.length < 4294967296
    ∧ readU32 (emitted 8 sampleTools sampleStack emptyStreams hugeNameSymbols [] 2 1) 8 = 60
    ∧ readU32 (emitted 8 sampleTools sampleStack emptyStreams hugeNameSymbols [] 2 1) 12 = 1
    ∧ readU32 (emitted 8 sampleTools sampleStack emptyStreams hugeNameSymbols [] 2 1)
        (60 + 18 * 1) = 0
    ∧ (stringTable sampleTools hugeNameSymbols).length + 4 = 4294967296 := by
  have hm : alignmentMask 1 = some 0x100000 := by decide
  have hlen : (stringTable sampleTools hugeNameSymbols).length = 4294967292 :=
    stringTable_replicate_length 0 4294967291 65
  have h := readU32_emitted_lengthField 8 sampleTools sampleStack emptyStreams hugeNameSymbols
    [] 2 1 _ hm
  have hoff : 60 + ([] : List Nat).length + subSize (pad ([] : List Nat).length)
      ([] : List Nat).length + 18 * hugeNameSymbols.length = 60 + 18 * 1 := by decide
  rw [hoff, hlen] at h
  refine ⟨by decide, by decide, by decide, by decide, ?_, ?_, ?_, ?_⟩
  · rw [readU32_emitted_symtab 8 sampleTools sampleStack emptyStreams hugeNameSymbols [] 2 1 _ hm]
    decide
  · rw [readU32_emitted_symbolCount 8 sampleTools sampleStack emptyStreams hugeNameSymbols [] 2 1
      _ hm]
    decide
  · rw [h]
    decide
  · rw [hlen]

/-- C3, amended, at the sample input. -/
theorem writeObject_symbol_table_offset_witness :
    readU32 (emitted 8 sampleTools sampleStack emptyStreams sampleSymbols samplePayload 2 1) 8
        = 20 + 40 + pad samplePayload.length
    ∧ readU32 (emitted 8 sampleTools sampleStack emptyStreams sampleSymbols samplePayload 2 1)
          (readU32 (emitted 8 sampleTools sampleStack emptyStreams sampleSymbols samplePayload
              2 1) 8
            + 18 * readU32 (emitted 8 sampleTools sampleStack emptyStreams sampleSymbols
                samplePayload 2 1) 12)
        = (stringTable sampleTools sampleSymbols).length + 4 :=
  ⟨(writeObject_symbol_table_offset 8 sampleTools sampleStack emptyStreams sampleSymbols
      samplePayload 2 1 (by decide) (by decide) (by decide) (by decide) (by decide)).2.1,
   (writeObject_symbol_table_offset 8 sampleTools sampleStack emptyStreams sampleSymbols
      samplePayload 2 1 (by decide) (by decide) (by decide) (by decide) (by decide)).2.2.2.2⟩

theorem readU32_sectionHeader_rawSize (h : IMAGE_SECTION_HEADER) (rest : List Nat) :
    readU32 (h.bytes ++ rest) 16 = u32 h.SizeOfRawData := by
  have e : readU32 (h.bytes ++ rest) 16 = h.SizeOfRawData % 256
      + 256 * (h.SizeOfRawData / 256 % 256)
      + 65536 * (h.SizeOfRawData / 65536 % 256)
      + 16777216 * (h.SizeOfRawData / 16777216 % 256) := rfl
  rw [e]
  unfold u32
  omega

theorem readU32_sectionHeader_rawPointer (h : IMAGE_SECTION_HEADER) (rest : List Nat) :
    readU32 (h.bytes ++ rest) 20 = u32 h.PointerToRawData := by
  have e : readU32 (h.bytes ++ rest) 20 = h.PointerToRawData % 256
      + 256 * (h.PointerToRawData / 256 % 256)
      + 65536 * (h.PointerToRawData / 65536 % 256)
      + 16777216 * (h.PointerToRawData / 16777216 % 256) := rfl
  rw [e]
  unfold u32
  omega

theorem readU32_sectionHeader_characteristics (h : IMAGE_SECTION_HEADER) (rest : List Nat) :
    readU32 (h.bytes ++ rest) 36 = u32 h.Characteristics := by
  have e : readU32 (h.bytes ++ rest) 36 = h.Characteristics % 256
      + 256 * (h.Characteristics / 256 % 256)
      + 65536 * (h.Characteristics / 65536 % 256)
      + 16777216 * (h.Characteristics / 16777216 % 256) := rfl
  rw [e]
  unfold u32
  omega

/-- The emitted bytes from offset 20 on: the section header and what follows. -/
theorem emitted_drop_20 (BytesPerWord : Nat) (T : Tools) (stack : Uninit) (io : Streams)
    (symbols : List SymbolInfo) (data : List Nat) (accessFlags alignment m : Nat)
    (hm : alignmentMask alignment = some m) :
    (emitted BytesPerWord T stack io symbols data accessFlags alignment).drop 20
      = (sectionHeaderOf T stack.sectionHeader accessFlags m data.length).bytes
          ++ (data
          ++ (List.replicate (subSize (pad data.length) data.length) 0
          ++ (symbolBytes (symbolRecords T 0 symbols)
          ++ (le32 (u32 ((stringTable T symbols).length + 4))
          ++ stringTable T symbols)))) := by
  rw [emitted_eq BytesPerWord T stack io symbols data accessFlags alignment m hm]
  exact List.drop_left' (fileHeader_bytes_length _)

/-- The emitted bytes from offset 60 on: the padded payload and what follows. -/
theorem emitted_drop_60 (BytesPerWord : Nat) (T : Tools) (stack : Uninit) (io : Streams)
    (symbols : List SymbolInfo) (data : List Nat) (accessFlags alignment m : Nat)
    (hm : alignmentMask alignment = some m) :
    (emitted BytesPerWord T stack io symbols data accessFlags alignment).drop 60
      = data
          ++ (List.replicate (subSize (pad data.length) data.length) 0
          ++ (symbolBytes (symbolRecords T 0 symbols)
          ++ (le32 (u32 ((stringTable T symbols).length + 4))
          ++ stringTable T symbols))) := by
  have h := emitted_drop_20 BytesPerWord T stack io symbols data accessFlags alignment m hm
  have e : (emitted BytesPerWord T stack io symbols data accessFlags alignment).drop 60
      = ((emitted BytesPerWord T stack io symbols data accessFlags alignment).drop 20).drop 40 := by
    rw [List.drop_drop]
  rw [e, h]
  exact List.drop_left' (sectionHeader_bytes_length _)

theorem readU32_drop (l : List Nat) (k off : Nat) :
    readU32 (l.drop k) off = readU32 l (k + off) := by
  simp only [readU32, List.getD_eq_getElem?_getD, List.getElem?_drop, Nat.add_assoc]

/-- C4: for every accepted `writeObject` input whose payload length does not
overflow 32-bit arithmetic, the section header's `rawDataOffset` is the payload
offset of the section plus the file writer's `dataStart`, which is 60, the
offset in the emitted bytes of the first payload byte; its `rawDataSize` is
`pad(payloadLength)`; the emitted bytes in `[rawDataOffset, rawDataOffset +
rawDataSize)` are the payload followed by zero bytes; and `rawDataOffset +
rawDataSize` does not exceed the total emitted length. -/
theorem writeObject_section_raw_data (BytesPerWord : Nat) (T : Tools) (stack : Uninit)
    (io : Streams) (symbols : List SymbolInfo) (data : List Nat) (accessFlags alignment : Nat)
    (ha : alignment = 0 ∨ alignment = 1 ∨ alignment = 2 ∨ alignment = 4 ∨ alignment = 8)
    (hpay : data.length + 3 < 4294967296) :
    (∀ (name : List Nat) (mask : Nat),
      readU32 (emitted BytesPerWord T stack io symbols data accessFlags alignment) 40
        = (SectionWriter.new stack.sectionHeader
            (FileWriter.new stack.fileHeader (machineOf BytesPerWord).1
              (machineOf BytesPerWord).2 symbols.length) name mask data data.length).1.dataOffset
          + (SectionWriter.new stack.sectionHeader
            (FileWriter.new stack.fileHeader (machineOf BytesPerWord).1
              (machineOf BytesPerWord).2 symbols.length) name mask data data.length).2.dataStart)
    ∧ readU32 (emitted BytesPerWord T stack io symbols data accessFlags alignment) 40 = 60
    ∧ readU32 (emitted BytesPerWord T stack io symbols data accessFlags alignment) 36
        = pad data.length
    ∧ ((emitted BytesPerWord T stack io symbols data accessFlags alignment).drop
          (readU32 (emitted BytesPerWord T stack io symbols data accessFlags alignment) 40)).take
          data.length = data
    ∧ ((emitted BytesPerWord T stack io symbols data accessFlags alignment).drop
          (readU32 (emitted BytesPerWord T stack io symbols data accessFlags alignment) 40)).take
          (readU32 (emitted BytesPerWord T stack io symbols data accessFlags alignment) 36)
        = data ++ List.replicate (pad data.length - data.length) 0
    ∧ readU32 (emitted BytesPerWord T stack io symbols data accessFlags alignment) 40
        + readU32 (emitted BytesPerWord T stack io symbols data accessFlags alignment) 36
        ≤ (emitted BytesPerWord T stack io symbols data accessFlags alignment).length := by
  obtain ⟨m, hm⟩ := alignmentMask_isSome ha
  have h20 := emitted_drop_20 BytesPerWord T stack io symbols data accessFlags alignment m hm
  have h60 := emitted_drop_60 BytesPerWord T stack io symbols data accessFlags alignment m hm
  have hlen := emitted_length BytesPerWord T stack io symbols data accessFlags alignment m hm
  obtain ⟨hz, hle, _⟩ := subSize_pad hpay
  have h40 : readU32 (emitted BytesPerWord T stack io symbols data accessFlags alignment) 40
      = 60 := by
    have e := readU32_drop (emitted BytesPerWord T stack io symbols data accessFlags alignment)
      20 20
    rw [h20, readU32_sectionHeader_rawPointer] at e
    rw [show (40 : Nat) = 20 + 20 from rfl, ← e]
    rfl
  have h36 : readU32 (emitted BytesPerWord T stack io symbols data accessFlags alignment) 36
      = pad data.length := by
    have e := readU32_drop (emitted BytesPerWord T stack io symbols data accessFlags alignment)
      20 16
    rw [h20, readU32_sectionHeader_rawSize] at e
    rw [show (36 : Nat) = 20 + 16 from rfl, ← e]
    exact u32_of_lt (pad_lt _)
  refine ⟨?_, h40, h36, ?_, ?_, ?_⟩
  · intro name mask
    obtain ⟨h1, _, h3⟩ := SectionWriter_new_layout stack.sectionHeader stack.fileHeader
      (machineOf BytesPerWord).1 (machineOf BytesPerWord).2 symbols.length name mask data
    rw [h40, h1, h3]
  · rw [h40, h60]
    exact List.take_left _ _
  · rw [h40, h36, h60, hz, ← List.append_assoc]
    exact List.take_left' (by rw [List.length_append, List.length_replicate]; omega)
  · rw [h40, h36, hlen]
    omega

/-- C4 at the sample input. -/
theorem writeObject_section_raw_data_witness :
    readU32 (emitted 8 sampleTools sampleStack emptyStreams sampleSymbols samplePayload 2 1) 40
      = 60
    ∧ readU32 (emitted 8 sampleTools sampleStack emptyStreams sampleSymbols samplePayload 2 1) 36
        = pad samplePayload.length
    ∧ readU32 (emitted 8 sampleTools sampleStack emptyStreams sampleSymbols samplePayload 2 1) 40
        + readU32 (emitted 8 sampleTools sampleStack emptyStreams sampleSymbols samplePayload 2 1)
            36
        ≤ (emitted 8 sampleTools sampleStack emptyStreams sampleSymbols samplePayload 2 1).length :=
  ⟨(writeObject_section_raw_data 8 sampleTools sampleStack emptyStreams sampleSymbols
      samplePayload 2 1 (by decide) (by decide)).2.1,
   (writeObject_section_raw_data 8 sampleTools sampleStack emptyStreams sampleSymbols
      samplePayload 2 1 (by decide) (by decide)).2.2.1,
   (writeObject_section_raw_data 8 sampleTools sampleStack emptyStreams sampleSymbols
      samplePayload 2 1 (by decide) (by decide)).2.2.2.2.2⟩

theorem readU16_fileHeader_sectionCount (h : IMAGE_FILE_HEADER) (rest : List Nat) :
    readU16 (h.bytes ++ rest) 2 = u16 h.NumberOfSections := by
  have e : readU16 (h.bytes ++ rest) 2 = h.NumberOfSections % 256
      + 256 * (h.NumberOfSections / 256 % 256) := rfl
  rw [e]
  unfold u16
  omega

theorem readU16_emitted_sectionCount (BytesPerWord : Nat) (T : Tools) (stack : Uninit)
    (io : Streams) (symbols : List SymbolInfo) (data : List Nat)
    (accessFlags alignment m : Nat) (hm : alignmentMask alignment = some m) :
    readU16 (emitted BytesPerWord T stack io symbols data accessFlags alignment) 2 = 1 := by
  rw [emitted_eq BytesPerWord T stack io symbols data accessFlags alignment m hm,
    readU16_fileHeader_sectionCount]
  rfl

theorem hugePayload_length : hugePayload.length = 4294967295 := List.length_replicate _ _

/-- C5, amended: for every accepted `writeObject` input whose payload length
does not overflow 32-bit arithmetic (`payloadLength + 3 < 2^32`), the number of
bytes appended to the sink is `20 + sectionCount * 40 + pad(payloadLength) +
symbolCount * 18 + 4 + string-table byte length`, with `sectionCount = 1` (the
value in the emitted file header) and `symbolCount` the length of the symbol
list. -/
theorem writeObject_total_length (BytesPerWord : Nat) (T : Tools) (stack : Uninit)
    (io : Streams) (symbols : List SymbolInfo) (data : List Nat) (accessFlags alignment : Nat)
    (ha : alignment = 0 ∨ alignment = 1 ∨ alignment = 2 ∨ alignment = 4 ∨ alignment = 8)
    (hpay : data.length + 3 < 4294967296) :
    (emitted BytesPerWord T stack io symbols data accessFlags alignment).length
        = 20 + 1 * 40 + pad data.length + symbols.length * 18 + 4
            + (stringTable T symbols).length
    ∧ readU16 (emitted BytesPerWord T stack io symbols data accessFlags alignment) 2 = 1
    ∧ (writeObject BytesPerWord T stack io symbols data accessFlags alignment).2.out.length
        = io.out.length + (20 + 1 * 40 + pad data.length + symbols.length * 18 + 4
            + (stringTable T symbols).length) := by
  obtain ⟨m, hm⟩ := alignmentMask_isSome ha
  have hlen := emitted_length BytesPerWord T stack io symbols data accessFlags alignment m hm
  obtain ⟨hz, hle, _⟩ := subSize_pad hpay
  have hl : (emitted BytesPerWord T stack io symbols data accessFlags alignment).length
      = 20 + 1 * 40 + pad data.length + symbols.length * 18 + 4
          + (stringTable T symbols).length := by
    rw [hlen]
    omega
  refine ⟨hl, readU16_emitted_sectionCount BytesPerWord T stack io symbols data accessFlags
    alignment m hm, ?_⟩
  rw [← hl, writeObject_out BytesPerWord T stack io symbols data accessFlags alignment m hm,
    emitted_eq BytesPerWord T stack io symbols data accessFlags alignment m hm,
    List.length_append]

/-- C5 as stated fails: for a payload of `2^32 - 1` bytes and no symbols the
call is accepted, `pad` wraps to 0 and the claimed total is 64, but the writer
appends `2^64 + 64` bytes (the payload and a zero fill of `2^64 - (2^32 - 1)`
bytes among them). -/
theorem writeObject_total_length_counterexample :
    (1 = 0 ∨ 1 = 1 ∨ 1 = 2 ∨ 1 = 4 ∨ 1 = 8)
    ∧ (writeObject 8 sampleTools sampleStack emptyStreams [] hugePayload 2 1).1 = true
    ∧ (emitted 8 sampleTools sampleStack emptyStreams [] hugePayload 2 1).length
        = 18446744073709551680
    ∧ 20 + 1 * 40 + pad hugePayload.length + ([] : List SymbolInfo).length * 18 + 4
        + (stringTable sampleTools []).length = 64 := by
  have hm : alignmentMask 1 = some 0x100000 := by decide
  refine ⟨by decide, ?_, ?_, ?_⟩
  · rw [writeObject_out 8 sampleTools sampleStack emptyStreams [] hugePayload 2 1 _ hm]
  · rw [emitted_length 8 sampleTools sampleStack emptyStreams [] hugePayload 2 1 _ hm,
      hugePayload_length]
    decide
  · rw [hugePayload_length]
    decide

/-- C5, amended, at the sample input. -/
theorem writeObject_total_length_witness :
    (emitted 8 sampleTools sampleStack emptyStreams sampleSymbols samplePayload 2 1).length
      = 20 + 1 * 40 + pad samplePayload.length + sampleSymbols.length * 18 + 4
          + (stringTable sampleTools sampleSymbols).length :=
  (writeObject_total_length 8 sampleTools sampleStack emptyStreams sampleSymbols samplePayload
    2 1 (by decide) (by decide)).1

/-- C1 as stated fails: for the payload of `2^32 - 1` bytes and no symbols the
call is accepted, `pad(payloadLength) - payloadLength` is 0 (`pad` wraps to 0),
and the layout the claim describes would have 4294967359 bytes; the writer
appends the two headers, the payload, 18446744069414584321 zero bytes, the
length field and the empty string table, `2^64 + 64` bytes in all, so the bytes
appended are not the claimed ones. -/
theorem writeObject_byte_order_counterexample :
    (1 = 0 ∨ 1 = 1 ∨ 1 = 2 ∨ 1 = 4 ∨ 1 = 8)
    ∧ (writeObject 8 sampleTools sampleStack emptyStreams [] hugePayload 2 1).1 = true
    ∧ pad hugePayload.length - hugePayload.length = 0
    ∧ subSize (pad hugePayload.length) hugePayload.length = 18446744069414584321
    ∧ emitted 8 sampleTools sampleStack emptyStreams [] hugePayload 2 1
        = (fileHeaderOf 8 ([] : List SymbolInfo).length hugePayload.length).bytes
            ++ ((sectionHeaderOf sampleTools sampleStack.sectionHeader 2 0x100000
                  hugePayload.length).bytes
            ++ (hugePayload
            ++ (List.replicate 18446744069414584321 0
            ++ (symbolBytes (symbolRecords sampleTools 0 [])
            ++ (le32 (u32 ((stringTable sampleTools []).length + 4))
            ++ stringTable sampleTools [])))))
    ∧ (emitted 8 sampleTools sampleStack emptyStreams [] hugePayload 2 1).length
        = 18446744073709551680
    ∧ ((fileHeaderOf 8 ([] : List SymbolInfo).length hugePayload.length).bytes
            ++ ((sectionHeaderOf sampleTools sampleStack.sectionHeader 2 0x100000
                  hugePayload.length).bytes
            ++ (hugePayload
            ++ (List.replicate (pad hugePayload.length - hugePayload.length) 0
            ++ (symbolBytes (symbolRecords sampleTools 0 [])
            ++ (le32 (u32 ((stringTable sampleTools []).length + 4))
            ++ stringTable sampleTools [])))))).length = 4294967359
    ∧ emitted 8 sampleTools sampleStack emptyStreams [] hugePayload 2 1
        ≠ (fileHeaderOf 8 ([] : List SymbolInfo).length hugePayload.length).bytes
            ++ ((sectionHeaderOf sampleTools sampleStack.sectionHeader 2 0x100000
                  hugePayload.length).bytes
            ++ (hugePayload
            ++ (List.replicate (pad hugePayload.length - hugePayload.length) 0
            ++ (symbolBytes (symbolRecords sampleTools 0 [])
            ++ (le32 (u32 ((stringTable sampleTools []).length + 4))
            ++ stringTable sampleTools []))))) := by
  have hm : alignmentMask 1 = some 0x100000 := by decide
  have hp : pad hugePayload.length - hugePayload.length = 0 := by
    rw [hugePayload_length]; decide
  have hs : subSize (pad hugePayload.length) hugePayload.length = 18446744069414584321 := by
    rw [hugePayload_length]; decide
  have he := emitted_eq 8 sampleTools sampleStack emptyStreams [] hugePayload 2 1 _ hm
  rw [hs] at he
  have hl : (emitted 8 sampleTools sampleStack emptyStreams [] hugePayload 2 1).length
      = 18446744073709551680 := by
    rw [emitted_length 8 sampleTools sampleStack emptyStreams [] hugePayload 2 1 _ hm, hs,
      hugePayload_length]
    rfl
  have hc : ((fileHeaderOf 8 ([] : List SymbolInfo).length hugePayload.length).bytes
            ++ ((sectionHeaderOf sampleTools sampleStack.sectionHeader 2 0x100000
                  hugePayload.length).bytes
            ++ (hugePayload
            ++ (List.replicate (pad hugePayload.length - hugePayload.length) 0
            ++ (symbolBytes (symbolRecords sampleTools 0 [])
            ++ (le32 (u32 ((stringTable sampleTools []).length + 4))
            ++ stringTable sampleTools [])))))).length = 4294967359 := by
    rw [List.length_append, List.length_append, List.length_append, List.length_append,
      List.length_append, List.length_append, fileHeader_bytes_length,
      sectionHeader_bytes_length, List.length_replicate, symbolBytes_length,
      symbolRecords_length, le32_length, hugePayload_length]
    decide
  refine ⟨by decide, ?_, hp, hs, he, hl, hc, ?_⟩
  · rw [writeObject_out 8 sampleTools sampleStack emptyStreams [] hugePayload 2 1 _ hm]
  · intro h
    have h2 := congrArg List.length h
    rw [hl, hc] at h2
    exact absurd h2 (by decide)

theorem stringTable_append (T : Tools) (a b : List SymbolInfo) :
    stringTable T (a ++ b) = stringTable T a ++ stringTable T b := by
  induction a with
  | nil => rfl
  | cons s rest ih =>
    rw [List.cons_append]
    simp only [stringTable, ih, List.append_assoc]

/-- The string table splits at the entry of the `i`-th symbol. -/
theorem stringTable_split (T : Tools) (symbols : List SymbolInfo) (i : Nat)
    (hi : i < symbols.length) :
    stringTable T symbols
      = stringTable T (symbols.take i)
          ++ ((symbols[i].name ++ T.terminator) ++ stringTable T (symbols.drop (i + 1))) := by
  have h : symbols = symbols.take i ++ (symbols[i] :: symbols.drop (i + 1)) := by
    rw [← List.drop_eq_getElem_cons hi, List.take_append_drop]
  conv_lhs => rw [h]
  rw [stringTable_append]
  rfl

/-- The emitted bytes from the length field on: the on-disk string table. -/
theorem emitted_drop_table (BytesPerWord : Nat) (T : Tools) (stack : Uninit) (io : Streams)
    (symbols : List SymbolInfo) (data : List Nat) (accessFlags alignment m : Nat)
    (hm : alignmentMask alignment = some m) :
    (emitted BytesPerWord T stack io symbols data accessFlags alignment).drop
        (60 + data.length + subSize (pad data.length) data.length + 18 * symbols.length)
      = le32 (u32 ((stringTable T symbols).length + 4)) ++ stringTable T symbols := by
  obtain ⟨front, hl, he⟩ :=
    emitted_split BytesPerWord T stack io symbols data accessFlags alignment m hm
  rw [he, ← List.append_assoc]
  exact List.drop_left' (by
    rw [List.length_append, hl, symbolBytes_length, symbolRecords_length])

/-- The symbol loop run on a file writer with an empty string table leaves the
string table of the symbols added. -/
theorem addSymbols_strings_empty (T : Tools) (symbols : List SymbolInfo) (f : FileWriter)
    (hf : f.strings = []) : (addSymbols T f symbols).strings = stringTable T symbols := by
  rw [addSymbols_strings, hf, List.nil_append]

/-- C6, amended: for every accepted `writeObject` input and every index `i`
into the symbol list such that the offset the String Table returns for symbol
`i` plus 4 is below `2^32`, the `nameLongOffset` field of the `i`-th emitted
symbol record is that returned offset plus 4 and, taken as an offset from the
start of the on-disk string table (the 4-byte length field included), it
points at the first byte of the entry appended for symbol `i`: the bytes there
are exactly the name of symbol `i` followed by the terminator. -/
theorem writeObject_name_offset (BytesPerWord : Nat) (T : Tools) (stack : Uninit)
    (io : Streams) (symbols : List SymbolInfo) (data : List Nat) (accessFlags alignment : Nat)
    (ha : alignment = 0 ∨ alignment = 1 ∨ alignment = 2 ∨ alignment = 4 ∨ alignment = 8)
    (i : Nat) (hi : i < symbols.length)
    (hoff : (stringTable T (symbols.take i)).length + 4 < 4294967296) :
    (∀ f : FileWriter, f.strings = [] →
      readU32 (emitted BytesPerWord T stack io symbols data accessFlags alignment)
          (60 + data.length + subSize (pad data.length) data.length + 18 * i + 4)
        = (StringTable.add T (addSymbols T f (symbols.take i)).strings symbols[i].name).2 + 4)
    ∧ readU32 (emitted BytesPerWord T stack io symbols data accessFlags alignment)
          (60 + data.length + subSize (pad data.length) data.length + 18 * i + 4)
        = (stringTable T (symbols.take i)).length + 4
    ∧ ((emitted BytesPerWord T stack io symbols data accessFlags alignment).drop
          (60 + data.length + subSize (pad data.length) data.length + 18 * symbols.length
            + readU32 (emitted BytesPerWord T stack io symbols data accessFlags alignment)
                (60 + data.length + subSize (pad data.length) data.length + 18 * i + 4))).take
          symbols[i].name.length = symbols[i].name
    ∧ ((emitted BytesPerWord T stack io symbols data accessFlags alignment).drop
          (60 + data.length + subSize (pad data.length) data.length + 18 * symbols.length
            + readU32 (emitted BytesPerWord T stack io symbols data accessFlags alignment)
                (60 + data.length + subSize (pad data.length) data.length + 18 * i + 4))).take
          (symbols[i].name ++ T.terminator).length = symbols[i].name ++ T.terminator := by
  obtain ⟨m, hm⟩ := alignmentMask_isSome ha
  have hf : readU32 (emitted BytesPerWord T stack io symbols data accessFlags alignment)
      (60 + data.length + subSize (pad data.length) data.length + 18 * i + 4)
      = (stringTable T (symbols.take i)).length + 4 := by
    rw [readU32_emitted_long BytesPerWord T stack io symbols data accessFlags alignment m hm
      i hi, u32_of_lt (show (stringTable T (symbols.take i)).length < 4294967296 by omega),
      u32_of_lt hoff]
  have hd : (emitted BytesPerWord T stack io symbols data accessFlags alignment).drop
      (60 + data.length + subSize (pad data.length) data.length + 18 * symbols.length
        + ((stringTable T (symbols.take i)).length + 4))
      = (symbols[i].name ++ T.terminator) ++ stringTable T (symbols.drop (i + 1)) := by
    rw [← List.drop_drop,
      emitted_drop_table BytesPerWord T stack io symbols data accessFlags alignment m hm,
      Nat.add_comm _ 4, ← List.drop_drop,
      List.drop_left' (le32_length _)]
    conv_lhs => rw [stringTable_split T symbols i hi]
    exact List.drop_left _ _
  refine ⟨?_, hf, ?_, ?_⟩
  · intro f hfe
    rw [hf, addSymbols_strings_empty T _ f hfe]
    rfl
  · rw [hf, hd, List.append_assoc]
    exact List.take_left _ _
  · rw [hf, hd]
    exact List.take_left _ _


theorem StringTable_add_offset (T : Tools) (strings name : List Nat) :
    (StringTable.add T strings name).2 = strings.length := rfl

/-- The string-table lengths for a first name of `n` copies of a byte followed
by the symbol `b`, with the sample terminator. -/
theorem stringTable_two_lengths (n : Nat) :
    (stringTable sampleTools
        (List.take 1 [{ addr := 0, name := List.replicate n 65 },
          ({ addr := 0, name := [98] } : SymbolInfo)])).length = n + 1
    ∧ (stringTable sampleTools
        [{ addr := 0, name := List.replicate n 65 },
          ({ addr := 0, name := [98] } : SymbolInfo)]).length = n + 3 := by
  constructor
  · simp only [List.take_succ_cons, List.take_zero, stringTable, sampleTools,
      List.length_append, List.length_replicate, List.length_cons, List.length_nil]
  · simp only [stringTable, sampleTools, List.length_append, List.length_replicate,
      List.length_cons, List.length_nil]

/-- C6 as stated fails: with an empty payload and the symbols of `wrapSymbols`
the call is accepted, the String Table returns offset 4294967292 for the
second symbol (named `b`), so that offset plus 4 is 4294967296, but the
`nameLongOffset` field of the second record holds 0; at offset 0 of the
on-disk string table lies the length field (first byte 2), not the name. -/
theorem writeObject_name_offset_counterexample :
    (1 = 0 ∨ 1 = 1 ∨ 1 = 2 ∨ 1 = 4 ∨ 1 = 8)
    ∧ 1 < wrapSymbols.length
    ∧ (wrapSymbols.map SymbolInfo.name).getD 1 [] = [98]
    ∧ (StringTable.add sampleTools (stringTable sampleTools (wrapSymbols.take 1)) [98]).2 + 4
        = 4294967296
    ∧ readU32 (emitted 8 sampleTools sampleStack emptyStreams wrapSymbols [] 2 1)
        (60 + 18 * 1 + 4) = 0
    ∧ ((emitted 8 sampleTools sampleStack emptyStreams wrapSymbols [] 2 1).drop
        (60 + 18 * 2 + 0)).take 1 = [2] := by
  have hm : alignmentMask 1 = some 0x100000 := by decide
  have h1 : (stringTable sampleTools (wrapSymbols.take 1)).length = 4294967292 :=
    (stringTable_two_lengths 4294967291).1
  have h2 : (stringTable sampleTools wrapSymbols).length = 4294967294 :=
    (stringTable_two_lengths 4294967291).2
  have hl := readU32_emitted_long 8 sampleTools sampleStack emptyStreams wrapSymbols [] 2 1 _ hm
    1 (by decide)
  have hoff : 60 + ([] : List Nat).length + subSize (pad ([] : List Nat).length)
      ([] : List Nat).length + 18 * 1 + 4 = 60 + 18 * 1 + 4 := by decide
  have ht := emitted_drop_table 8 sampleTools sampleStack emptyStreams wrapSymbols [] 2 1 _ hm
  have hoff2 : 60 + ([] : List Nat).length + subSize (pad ([] : List Nat).length)
      ([] : List Nat).length + 18 * wrapSymbols.length = 60 + 18 * 2 + 0 := by decide
  rw [hoff, h1] at hl
  rw [hoff2, h2] at ht
  refine ⟨by decide, by decide, rfl, ?_, ?_, ?_⟩
  · rw [StringTable_add_offset, h1]
  · rw [hl]
    decide
  · rw [ht, show le32 (u32 (4294967294 + 4)) = [2, 0, 0, 0] by decide]
    rfl

/-- C6, amended, at the sample input and its only symbol. -/
theorem writeObject_name_offset_witness :
    readU32 (emitted 8 sampleTools sampleStack emptyStreams sampleSymbols samplePayload 2 1)
        (60 + samplePayload.length + subSize (pad samplePayload.length) samplePayload.length
          + 18 * 0 + 4)
      = (stringTable sampleTools (sampleSymbols.take 0)).length + 4 :=
  (writeObject_name_offset 8 sampleTools sampleStack emptyStreams sampleSymbols samplePayload
    2 1 (by decide) 0 (by decide) (by decide)).2.1

theorem readU32_emitted_characteristics (BytesPerWord : Nat) (T : Tools) (stack : Uninit)
    (io : Streams) (symbols : List SymbolInfo) (data : List Nat)
    (accessFlags alignment m : Nat) (hm : alignmentMask alignment = some m) :
    readU32 (emitted BytesPerWord T stack io symbols data accessFlags alignment) 56
      = u32 (sectionChoice T accessFlags (m ||| IMAGE_SCN_MEM_READ)).2 := by
  have e := readU32_drop (emitted BytesPerWord T stack io symbols data accessFlags alignment)
    20 36
  rw [emitted_drop_20 BytesPerWord T stack io symbols data accessFlags alignment m hm,
    readU32_sectionHeader_characteristics] at e
  rw [show (56 : Nat) = 20 + 36 from rfl, ← e]
  simp only [sectionHeaderOf, u32, Nat.mod_mod]

/-- The first `k` bytes of the emitted name field, for `k` up to 8. -/
theorem emitted_name_take (BytesPerWord : Nat) (T : Tools) (stack : Uninit)
    (io : Streams) (symbols : List SymbolInfo) (data : List Nat)
    (accessFlags alignment m : Nat) (hm : alignmentMask alignment = some m)
    (k : Nat) (hk : k ≤ 8) :
    ((emitted BytesPerWord T stack io symbols data accessFlags alignment).drop 20).take k
      = (sectionHeaderOf T stack.sectionHeader accessFlags m data.length).nameBytes.take k := by
  rw [emitted_drop_20 BytesPerWord T stack io symbols data accessFlags alignment m hm]
  simp only [IMAGE_SECTION_HEADER.bytes, List.append_assoc]
  exact List.take_append_of_le_length hk

theorem alignmentMask_values {alignment m : Nat} (hm : alignmentMask alignment = some m) :
    m = 0x100000 ∨ m = 0x200000 ∨ m = 0x300000 ∨ m = 0x400000 := by
  unfold alignmentMask at hm
  split at hm
  · left; injection hm with h; exact h.symm
  · split at hm
    · right; left; injection hm with h; exact h.symm
    · split at hm
      · right; right; left; injection hm with h; exact h.symm
      · split at hm
        · right; right; right; injection hm with h; exact h.symm
        · cases hm

theorem sectionChoice_rwx (T : Tools) (accessFlags sectionMask : Nat)
    (hw : accessFlags &&& T.Writable ≠ 0) (he : accessFlags &&& T.Executable ≠ 0) :
    sectionChoice T accessFlags sectionMask
      = (name_rwx, sectionMask |||
          (IMAGE_SCN_MEM_WRITE ||| IMAGE_SCN_MEM_EXECUTE ||| IMAGE_SCN_CNT_CODE)) := by
  unfold sectionChoice
  rw [if_pos hw, if_pos he]

theorem sectionChoice_data (T : Tools) (accessFlags sectionMask : Nat)
    (hw : accessFlags &&& T.Writable ≠ 0) (he : ¬ accessFlags &&& T.Executable ≠ 0) :
    sectionChoice T accessFlags sectionMask
      = (name_data, sectionMask ||| IMAGE_SCN_MEM_WRITE) := by
  unfold sectionChoice
  rw [if_pos hw, if_neg he]

theorem sectionChoice_text (T : Tools) (accessFlags sectionMask : Nat)
    (hw : ¬ accessFlags &&& T.Writable ≠ 0) :
    sectionChoice T accessFlags sectionMask
      = (name_text, sectionMask ||| (IMAGE_SCN_MEM_EXECUTE ||| IMAGE_SCN_CNT_CODE)) := by
  unfold sectionChoice
  rw [if_neg hw]

/-- C7: for every `accessFlags` value and every supported alignment, the section
characteristics `writeObject` emits have the read bit (0x40000000) set, and:
when `Writable` and `Executable` are both set the name field holds `.rwx` and
write (0x80000000), execute (0x20000000) and contains-code (0x20) are all set;
when `Writable` is set and `Executable` is not, the name field holds `.data`,
write is set and execute and contains-code are clear; when `Writable` is not
set the name field holds `.text`, execute and contains-code are set and write
is clear. Exactly one of the three cases applies. -/
theorem writeObject_access_flags (BytesPerWord : Nat) (T : Tools) (stack : Uninit)
    (io : Streams) (symbols : List SymbolInfo) (data : List Nat) (accessFlags alignment : Nat)
    (ha : alignment = 0 ∨ alignment = 1 ∨ alignment = 2 ∨ alignment = 4 ∨ alignment = 8) :
    readU32 (emitted BytesPerWord T stack io symbols data accessFlags alignment) 56
        &&& 0x40000000 = 0x40000000
    ∧ ((accessFlags &&& T.Writable ≠ 0 ∧ accessFlags &&& T.Executable ≠ 0) →
        ((emitted BytesPerWord T stack io symbols data accessFlags alignment).drop 20).take 5
            = name_rwx ++ [0]
        ∧ readU32 (emitted BytesPerWord T stack io symbols data accessFlags alignment) 56
            &&& 0x80000000 = 0x80000000
        ∧ readU32 (emitted BytesPerWord T stack io symbols data accessFlags alignment) 56
            &&& 0x20000000 = 0x20000000
        ∧ readU32 (emitted BytesPerWord T stack io symbols data accessFlags alignment) 56
            &&& 0x20 = 0x20)
    ∧ ((accessFlags &&& T.Writable ≠ 0 ∧ ¬ accessFlags &&& T.Executable ≠ 0) →
        ((emitted BytesPerWord T stack io symbols data accessFlags alignment).drop 20).take 6
            = name_data ++ [0]
        ∧ readU32 (emitted BytesPerWord T stack io symbols data accessFlags alignment) 56
            &&& 0x80000000 = 0x80000000
        ∧ readU32 (emitted BytesPerWord T stack io symbols data accessFlags alignment) 56
            &&& 0x20000000 = 0
        ∧ readU32 (emitted BytesPerWord T stack io symbols data accessFlags alignment) 56
            &&& 0x20 = 0)
    ∧ (¬ accessFlags &&& T.Writable ≠ 0 →
        ((emitted BytesPerWord T stack io symbols data accessFlags alignment).drop 20).take 6
            = name_text ++ [0]
        ∧ readU32 (emitted BytesPerWord T stack io symbols data accessFlags alignment) 56
            &&& 0x20000000 = 0x20000000
        ∧ readU32 (emitted BytesPerWord T stack io symbols data accessFlags alignment) 56
            &&& 0x20 = 0x20
        ∧ readU32 (emitted BytesPerWord T stack io symbols data accessFlags alignment) 56
            &&& 0x80000000 = 0)
    ∧ ((accessFlags &&& T.Writable ≠ 0 ∧ accessFlags &&& T.Executable ≠ 0)
        ∨ (accessFlags &&& T.Writable ≠ 0 ∧ ¬ accessFlags &&& T.Executable ≠ 0)
        ∨ ¬ accessFlags &&& T.Writable ≠ 0)
    ∧ ¬ ((accessFlags &&& T.Writable ≠ 0 ∧ accessFlags &&& T.Executable ≠ 0)
        ∧ (accessFlags &&& T.Writable ≠ 0 ∧ ¬ accessFlags &&& T.Executable ≠ 0))
    ∧ ¬ ((accessFlags &&& T.Writable ≠ 0 ∧ accessFlags &&& T.Executable ≠ 0)
        ∧ ¬ accessFlags &&& T.Writable ≠ 0)
    ∧ ¬ ((accessFlags &&& T.Writable ≠ 0 ∧ ¬ accessFlags &&& T.Executable ≠ 0)
        ∧ ¬ accessFlags &&& T.Writable ≠ 0) := by
  obtain ⟨m, hm⟩ := alignmentMask_isSome ha
  have hc := readU32_emitted_characteristics BytesPerWord T stack io symbols data accessFlags
    alignment m hm
  have hn5 := emitted_name_take BytesPerWord T stack io symbols data accessFlags alignment m hm
    5 (by decide)
  have hn6 := emitted_name_take BytesPerWord T stack io symbols data accessFlags alignment m hm
    6 (by decide)
  have hv := alignmentMask_values hm
  refine ⟨?_, ?_, ?_, ?_, ?_, ?_, ?_, ?_⟩
  · rw [hc]
    by_cases hw : accessFlags &&& T.Writable ≠ 0
    · by_cases he : accessFlags &&& T.Executable ≠ 0
      · rw [sectionChoice_rwx T accessFlags _ hw he]
        rcases hv with h | h | h | h <;> subst h <;> decide
      · rw [sectionChoice_data T accessFlags _ hw he]
        rcases hv with h | h | h | h <;> subst h <;> decide
    · rw [sectionChoice_text T accessFlags _ hw]
      rcases hv with h | h | h | h <;> subst h <;> decide
  · rintro ⟨hw, he⟩
    rw [hc, hn5]
    simp only [sectionHeaderOf, sectionChoice_rwx T accessFlags _ hw he]
    refine ⟨rfl, ?_, ?_, ?_⟩ <;> rcases hv with h | h | h | h <;> subst h <;> decide
  · rintro ⟨hw, he⟩
    rw [hc, hn6]
    simp only [sectionHeaderOf, sectionChoice_data T accessFlags _ hw he]
    refine ⟨rfl, ?_, ?_, ?_⟩ <;> rcases hv with h | h | h | h <;> subst h <;> decide
  · intro hw
    rw [hc, hn6]
    simp only [sectionHeaderOf, sectionChoice_text T accessFlags _ hw]
    refine ⟨rfl, ?_, ?_, ?_⟩ <;> rcases hv with h | h | h | h <;> subst h <;> decide
  · by_cases hw : accessFlags &&& T.Writable ≠ 0
    · by_cases he : accessFlags &&& T.Executable ≠ 0
      · exact Or.inl ⟨hw, he⟩
      · exact Or.inr (Or.inl ⟨hw, he⟩)
    · exact Or.inr (Or.inr hw)
  · rintro ⟨⟨_, he⟩, ⟨_, hne⟩⟩
    exact hne he
  · rintro ⟨⟨hw, _⟩, hnw⟩
    exact hnw hw
  · rintro ⟨⟨hw, _⟩, hnw⟩
    exact hnw hw


/-- C7 at the sample input with `Executable` access (a `.text` section) and
with `Writable` and `Executable` access (a `.rwx` section). -/
theorem writeObject_access_flags_witness :
    (readU32 (emitted 8 sampleTools sampleStack emptyStreams sampleSymbols samplePayload 2 1) 56
        &&& 0x40000000 = 0x40000000)
    ∧ (((emitted 8 sampleTools sampleStack emptyStreams sampleSymbols samplePayload 2 1).drop
            20).take 6 = name_text ++ [0]
      ∧ readU32 (emitted 8 sampleTools sampleStack emptyStreams sampleSymbols samplePayload 2 1)
          56 &&& 0x20000000 = 0x20000000
      ∧ readU32 (emitted 8 sampleTools sampleStack emptyStreams sampleSymbols samplePayload 2 1)
          56 &&& 0x20 = 0x20
      ∧ readU32 (emitted 8 sampleTools sampleStack emptyStreams sampleSymbols samplePayload 2 1)
          56 &&& 0x80000000 = 0)
    ∧ (((emitted 8 sampleTools sampleStack emptyStreams sampleSymbols samplePayload 3 1).drop
            20).take 5 = name_rwx ++ [0]
      ∧ readU32 (emitted 8 sampleTools sampleStack emptyStreams sampleSymbols samplePayload 3 1)
          56 &&& 0x80000000 = 0x80000000
      ∧ readU32 (emitted 8 sampleTools sampleStack emptyStreams sampleSymbols samplePayload 3 1)
          56 &&& 0x20000000 = 0x20000000
      ∧ readU32 (emitted 8 sampleTools sampleStack emptyStreams sampleSymbols samplePayload 3 1)
          56 &&& 0x20 = 0x20) :=
  ⟨(writeObject_access_flags 8 sampleTools sampleStack emptyStreams sampleSymbols samplePayload
      2 1 (by decide)).1,
   (writeObject_access_flags 8 sampleTools sampleStack emptyStreams sampleSymbols samplePayload
      2 1 (by decide)).2.2.2.1 (by decide),
   (writeObject_access_flags 8 sampleTools sampleStack emptyStreams sampleSymbols samplePayload
      3 1 (by decide)).2.1 (by decide)⟩

theorem readU16_fileHeader_machine (h : IMAGE_FILE_HEADER) (rest : List Nat) :
    readU16 (h.bytes ++ rest) 0 = u16 h.Machine := by
  have e : readU16 (h.bytes ++ rest) 0 = h.Machine % 256 + 256 * (h.Machine / 256 % 256) := rfl
  rw [e]
  unfold u16
  omega

theorem readU32_fileHeader_timestamp (h : IMAGE_FILE_HEADER) (rest : List Nat) :
    readU32 (h.bytes ++ rest) 4 = u32 h.TimeDateStamp := by
  have e : readU32 (h.bytes ++ rest) 4 = h.TimeDateStamp % 256
      + 256 * (h.TimeDateStamp / 256 % 256)
      + 65536 * (h.TimeDateStamp / 65536 % 256)
      + 16777216 * (h.TimeDateStamp / 16777216 % 256) := rfl
  rw [e]
  unfold u32
  omega

theorem readU16_fileHeader_optionalSize (h : IMAGE_FILE_HEADER) (rest : List Nat) :
    readU16 (h.bytes ++ rest) 16 = u16 h.SizeOfOptionalHeader := by
  have e : readU16 (h.bytes ++ rest) 16 = h.SizeOfOptionalHeader % 256
      + 256 * (h.SizeOfOptionalHeader / 256 % 256) := rfl
  rw [e]
  unfold u16
  omega

theorem readU16_fileHeader_characteristics (h : IMAGE_FILE_HEADER) (rest : List Nat) :
    readU16 (h.bytes ++ rest) 18 = u16 h.Characteristics := by
  have e : readU16 (h.bytes ++ rest) 18 = h.Characteristics % 256
      + 256 * (h.Characteristics / 256 % 256) := rfl
  rw [e]
  unfold u16
  omega

/-- C8: for every accepted `writeObject` input the machine field, the
characteristics, the timestamp and the optional-header size of the emitted
file header are functions of the word width alone: with `BytesPerWord = 4` the
machine field is 0x014c and the characteristics are relocations-stripped |
line-numbers-stripped | 32-bit-machine (0x0105); with `BytesPerWord = 8` the
machine field is 0x8664 and the characteristics are relocations-stripped |
line-numbers-stripped (0x0005), the 32-bit-machine bit clear; in both cases the
timestamp and the optional-header size are 0. -/
theorem writeObject_machine_selection (BytesPerWord : Nat) (T : Tools) (stack : Uninit)
    (io : Streams) (symbols : List SymbolInfo) (data : List Nat) (accessFlags alignment : Nat)
    (ha : alignment = 0 ∨ alignment = 1 ∨ alignment = 2 ∨ alignment = 4 ∨ alignment = 8) :
    readU16 (emitted BytesPerWord T stack io symbols data accessFlags alignment) 0
        = u16 (machineOf BytesPerWord).1
    ∧ readU16 (emitted BytesPerWord T stack io symbols data accessFlags alignment) 18
        = u16 (IMAGE_FILE_RELOCS_STRIPPED ||| IMAGE_FILE_LINE_NUMS_STRIPPED
            ||| (machineOf BytesPerWord).2)
    ∧ readU32 (emitted BytesPerWord T stack io symbols data accessFlags alignment) 4 = 0
    ∧ readU16 (emitted BytesPerWord T stack io symbols data accessFlags alignment) 16 = 0
    ∧ (BytesPerWord = 4 →
        readU16 (emitted BytesPerWord T stack io symbols data accessFlags alignment) 0 = 0x014c
        ∧ readU16 (emitted BytesPerWord T stack io symbols data accessFlags alignment) 18
            = 0x0105
        ∧ (0x0105 : Nat) = IMAGE_FILE_RELOCS_STRIPPED ||| IMAGE_FILE_LINE_NUMS_STRIPPED
            ||| IMAGE_FILE_32BIT_MACHINE)
    ∧ (BytesPerWord = 8 →
        readU16 (emitted BytesPerWord T stack io symbols data accessFlags alignment) 0 = 0x8664
        ∧ readU16 (emitted BytesPerWord T stack io symbols data accessFlags alignment) 18
            = 0x0005
        ∧ (0x0005 : Nat) = IMAGE_FILE_RELOCS_STRIPPED ||| IMAGE_FILE_LINE_NUMS_STRIPPED
        ∧ readU16 (emitted BytesPerWord T stack io symbols data accessFlags alignment) 18
            &&& IMAGE_FILE_32BIT_MACHINE = 0) := by
  obtain ⟨m, hm⟩ := alignmentMask_isSome ha
  have he := emitted_eq BytesPerWord T stack io symbols data accessFlags alignment m hm
  have h0 : readU16 (emitted BytesPerWord T stack io symbols data accessFlags alignment) 0
      = u16 (machineOf BytesPerWord).1 := by
    rw [he, readU16_fileHeader_machine]
    simp only [fileHeaderOf, u16, Nat.mod_mod]
  have h18 : readU16 (emitted BytesPerWord T stack io symbols data accessFlags alignment) 18
      = u16 (IMAGE_FILE_RELOCS_STRIPPED ||| IMAGE_FILE_LINE_NUMS_STRIPPED
          ||| (machineOf BytesPerWord).2) := by
    rw [he, readU16_fileHeader_characteristics]
    simp only [fileHeaderOf, u16, Nat.mod_mod]
  refine ⟨h0, h18, ?_, ?_, ?_, ?_⟩
  · rw [he, readU32_fileHeader_timestamp]
    rfl
  · rw [he, readU16_fileHeader_optionalSize]
    rfl
  · intro hb
    rw [h0, h18, hb]
    decide
  · intro hb
    rw [h0, h18, hb]
    decide

/-- C8 at the sample input, for the 32-bit and for the 64-bit writer. -/
theorem writeObject_machine_selection_witness :
    (readU16 (emitted 4 sampleTools sampleStack emptyStreams sampleSymbols samplePayload 2 1) 0
        = 0x014c
      ∧ readU16 (emitted 4 sampleTools sampleStack emptyStreams sampleSymbols samplePayload 2 1)
          18 = 0x0105
      ∧ (0x0105 : Nat) = IMAGE_FILE_RELOCS_STRIPPED ||| IMAGE_FILE_LINE_NUMS_STRIPPED
          ||| IMAGE_FILE_32BIT_MACHINE)
    ∧ (readU16 (emitted 8 sampleTools sampleStack emptyStreams sampleSymbols samplePayload 2 1) 0
        = 0x8664
      ∧ readU16 (emitted 8 sampleTools sampleStack emptyStreams sampleSymbols samplePayload 2 1)
          18 = 0x0005
      ∧ (0x0005 : Nat) = IMAGE_FILE_RELOCS_STRIPPED ||| IMAGE_FILE_LINE_NUMS_STRIPPED
      ∧ readU16 (emitted 8 sampleTools sampleStack emptyStreams sampleSymbols samplePayload 2 1)
          18 &&& IMAGE_FILE_32BIT_MACHINE = 0) :=
  ⟨(writeObject_machine_selection 4 sampleTools sampleStack emptyStreams sampleSymbols
      samplePayload 2 1 (by decide)).2.2.2.2.1 rfl,
   (writeObject_machine_selection 8 sampleTools sampleStack emptyStreams sampleSymbols
      samplePayload 2 1 (by decide)).2.2.2.2.2 rfl⟩

/-- C9, amended: `pad(n)` is a multiple of 4 and `pad` is idempotent for every
`n`; for every `n` with `n + 3 < 2^32` (no wrap-around in the `unsigned`
addition) `pad(n)` is the smallest multiple of 4 that is greater than or equal
to `n`. -/
theorem pad_round_up (n : Nat) :
    pad n % 4 = 0
    ∧ pad (pad n) = pad n
    ∧ (n + 3 < 4294967296 →
        n ≤ pad n ∧ ∀ m : Nat, m % 4 = 0 → n ≤ m → pad n ≤ m) := by
  have h4 := pad_mod_four n
  refine ⟨h4, ?_, ?_⟩
  · have hl : pad n + 3 < 4294967296 := by
      have := pad_lt n
      omega
    rw [pad_of_lt hl]
    omega
  · intro h
    rw [pad_of_lt h]
    constructor
    · omega
    · intro m hm hnm
      omega

/-- C9 as stated fails: 4294967295 is a 32-bit unsigned value, `pad` maps it to
0, and 0 is not greater than or equal to it. -/
theorem pad_round_up_counterexample :
    4294967295 < 4294967296 ∧ pad 4294967295 = 0 ∧ ¬ (4294967295 ≤ pad 4294967295) := by
  decide

/-- C9, amended, at `n = 5`. -/
theorem pad_round_up_witness :
    5 ≤ pad 5 ∧ ∀ m : Nat, m % 4 = 0 → 5 ≤ m → pad 5 ≤ m :=
  (pad_round_up 5).2.2 (by decide)

/-- Without wrap-around, the padded symbol-table size that
`FileWriter::writeHeader` projects exceeds the size `FileWriter::writeData`
writes by 2 exactly when the symbol count is odd. -/
theorem pad_symbol_table (n k : Nat) (hk : pad n + 18 * k + 3 < 4294967296) :
    pad (pad n + 18 * k) = pad n + 18 * k + 2 * (k % 2) := by
  have h4 := pad_mod_four n
  rw [pad_of_lt hk]
  omega

/-- C10 at the sample input (one symbol, a four-byte payload): `writeObject`
is accepted; `FileWriter::writeHeader` prints 64 as the symbol-table start and
84 as the string-table start, the value `dataStart + pad(dataOffset +
symbolCount * 18)`; the emitted header gives symbol-table offset 64 and symbol
count 1, and `FileWriter::writeData` places the length field (value 11, then
`_start` and its terminator) at offset `64 + 18 * 1 = 82`; at offset 84 lie
the last two bytes of the length field. -/
theorem writeHeader_string_table_start_sample :
    (writeObject 8 sampleTools sampleStack emptyStreams sampleSymbols samplePayload 2 1).1 = true
    ∧ (writeObject 8 sampleTools sampleStack emptyStreams sampleSymbols samplePayload 2
          1).2.console
        = [Message.symbolTableStart 64, Message.stringTableStart 84,
           Message.sectionData [46, 116, 101, 120, 116, 0, 204, 204] 60 64]
    ∧ 84 = 60 + pad (pad samplePayload.length + sampleSymbols.length * 18)
    ∧ readU32 (emitted 8 sampleTools sampleStack emptyStreams sampleSymbols samplePayload 2 1) 8
        = 64
    ∧ readU32 (emitted 8 sampleTools sampleStack emptyStreams sampleSymbols samplePayload 2 1) 12
        = 1
    ∧ (emitted 8 sampleTools sampleStack emptyStreams sampleSymbols samplePayload 2 1).drop
          (64 + 18 * 1)
        = le32 11 ++ (name_start ++ [0])
    ∧ (emitted 8 sampleTools sampleStack emptyStreams sampleSymbols samplePayload 2 1).drop 84
        = [0, 0] ++ (name_start ++ [0])
    ∧ 64 + 18 * 1 ≠ 84 := by
  decide

/-! ## Claims about the section header and the symbol records -/

/-- C11 at the sample section (name `.text`, mask 0x60100020, the four-byte
payload, a stack whose indeterminate bytes hold 0xCC): the serialized header
has 40 bytes; size/physicalAddress, relocPtr, lineNumPtr, relocCount and
lineNumCount are 0 and the characteristics field is the mask; but the
virtualAddress field, which the constructor never assigns, holds the stack
contents 0xCCCCCCCC instead of 0. The same shows in the bytes `writeObject`
emits, where the field is 0 only when the stack happened to hold zeros. -/
theorem SectionWriter_virtualAddress_sample :
    (serializedSectionHeader sampleSection.1 sampleSection.2).length = 40
    ∧ readU32 (serializedSectionHeader sampleSection.1 sampleSection.2) 8 = 0
    ∧ readU32 (serializedSectionHeader sampleSection.1 sampleSection.2) 12 = 0xCCCCCCCC
    ∧ readU32 (serializedSectionHeader sampleSection.1 sampleSection.2) 24 = 0
    ∧ readU32 (serializedSectionHeader sampleSection.1 sampleSection.2) 28 = 0
    ∧ readU16 (serializedSectionHeader sampleSection.1 sampleSection.2) 32 = 0
    ∧ readU16 (serializedSectionHeader sampleSection.1 sampleSection.2) 34 = 0
    ∧ readU32 (serializedSectionHeader sampleSection.1 sampleSection.2) 36 = 0x60100020
    ∧ readU32 (serializedSectionHeader zeroSection.1 zeroSection.2) 12 = 0
    ∧ readU32 (emitted 8 sampleTools sampleStack emptyStreams sampleSymbols samplePayload 2 1)
        (20 + 12) = 0xCCCCCCCC
    ∧ readU32 (emitted 8 sampleTools zeroStack emptyStreams sampleSymbols samplePayload 2 1)
        (20 + 12) = 0 := by
  decide

theorem take_drop_symbolBytes (rs : List IMAGE_SYMBOL) (rest : List Nat) (i : Nat)
    (r : IMAGE_SYMBOL) (hr : rs[i]? = some r) :
    ((symbolBytes rs ++ rest).drop (18 * i)).take 18 = r.bytes := by
  induction rs generalizing i with
  | nil => simp at hr
  | cons r0 rs ih =>
    cases i with
    | zero =>
      simp only [List.getElem?_cons_zero, Option.some.injEq] at hr
      subst hr
      simp only [symbolBytes, List.append_assoc, Nat.mul_zero, List.drop_zero]
      exact List.take_left' (symbol_bytes_length _)
    | succ j =>
      simp only [List.getElem?_cons_succ] at hr
      simp only [symbolBytes, List.append_assoc]
      have e : 18 * (j + 1) = r0.bytes.length + 18 * j := by
        rw [symbol_bytes_length]; omega
      rw [e, List.drop_append]
      exact ih j hr

theorem readU16_symbolBytes (rs : List IMAGE_SYMBOL) (rest : List Nat) (i k : Nat)
    (r : IMAGE_SYMBOL) (hr : rs[i]? = some r) (hk : k + 2 ≤ 18) :
    readU16 (symbolBytes rs ++ rest) (18 * i + k) = readU16 r.bytes k := by
  unfold readU16
  rw [getD_symbolBytes rs rest i k r hr (by omega),
    show 18 * i + k + 1 = 18 * i + (k + 1) from rfl,
    getD_symbolBytes rs rest i (k + 1) r hr (by omega)]

theorem readU8_symbolBytes (rs : List IMAGE_SYMBOL) (rest : List Nat) (i k : Nat)
    (r : IMAGE_SYMBOL) (hr : rs[i]? = some r) (hk : k < 18) :
    readU8 (symbolBytes rs ++ rest) (18 * i + k) = readU8 r.bytes k := by
  unfold readU8
  exact getD_symbolBytes rs rest i k r hr hk

/-- The fields of a serialized symbol record, read back at their packed
offsets. -/
theorem symbol_bytes_fields (r : IMAGE_SYMBOL) :
    readU32 r.bytes 0 = u32 r.Short ∧ readU32 r.bytes 8 = u32 r.Value
    ∧ readU16 r.bytes 12 = u16 r.SectionNumber ∧ readU16 r.bytes 14 = u16 r.Type_
    ∧ readU8 r.bytes 16 = u8 r.StorageClass ∧ readU8 r.bytes 17 = u8 r.NumberOfAuxSymbols := by
  have e0 : readU32 r.bytes 0 = r.Short % 256 + 256 * (r.Short / 256 % 256)
      + 65536 * (r.Short / 65536 % 256) + 16777216 * (r.Short / 16777216 % 256) := rfl
  have e8 : readU32 r.bytes 8 = r.Value % 256 + 256 * (r.Value / 256 % 256)
      + 65536 * (r.Value / 65536 % 256) + 16777216 * (r.Value / 16777216 % 256) := rfl
  have e12 : readU16 r.bytes 12
      = r.SectionNumber % 256 + 256 * (r.SectionNumber / 256 % 256) := rfl
  have e14 : readU16 r.bytes 14 = r.Type_ % 256 + 256 * (r.Type_ / 256 % 256) := rfl
  refine ⟨?_, ?_, ?_, ?_, rfl, rfl⟩
  · rw [e0]; unfold u32; omega
  · rw [e8]; unfold u32; omega
  · rw [e12]; unfold u16; omega
  · rw [e14]; unfold u16; omega

/-- The record of the `i`-th symbol inside the emitted bytes. -/
theorem emitted_record (BytesPerWord : Nat) (T : Tools) (stack : Uninit) (io : Streams)
    (symbols : List SymbolInfo) (data : List Nat) (accessFlags alignment m : Nat)
    (hm : alignmentMask alignment = some m) (i : Nat) (hi : i < symbols.length) :
    ∃ front rest : List Nat,
      front.length = 60 + data.length + subSize (pad data.length) data.length
      ∧ (symbolRecords T 0 symbols)[i]?
          = some (symbolRecord (u32 (stringTable T (symbols.take i)).length)
              symbols[i].addr 1 0 2)
      ∧ emitted BytesPerWord T stack io symbols data accessFlags alignment
          = front ++ (symbolBytes (symbolRecords T 0 symbols) ++ rest) := by
  obtain ⟨front, hl, he⟩ :=
    emitted_split BytesPerWord T stack io symbols data accessFlags alignment m hm
  have hr := symbolRecords_getElem? T symbols 0 i
  rw [List.getElem?_eq_getElem hi, Option.map_some', Nat.zero_add] at hr
  exact ⟨front, _, hl, hr, he⟩

theorem readU8_append_right (a b : List Nat) (off : Nat) (h : a.length ≤ off) :
    readU8 (a ++ b) off = readU8 b (off - a.length) := by
  unfold readU8
  exact List.getD_append_right _ _ _ _ h

/-- Reading inside the `i`-th emitted record is reading inside the record the
symbol loop built for the `i`-th symbol. -/
theorem emitted_record_reads (BytesPerWord : Nat) (T : Tools) (stack : Uninit) (io : Streams)
    (symbols : List SymbolInfo) (data : List Nat) (accessFlags alignment m : Nat)
    (hm : alignmentMask alignment = some m) (i : Nat) (hi : i < symbols.length) :
    ((emitted BytesPerWord T stack io symbols data accessFlags alignment).drop
        (60 + data.length + subSize (pad data.length) data.length + 18 * i)).take 18
      = (symbolRecord (u32 (stringTable T (symbols.take i)).length)
          symbols[i].addr 1 0 2).bytes
    ∧ (∀ k : Nat, k + 4 ≤ 18 →
        readU32 (emitted BytesPerWord T stack io symbols data accessFlags alignment)
            (60 + data.length + subSize (pad data.length) data.length + 18 * i + k)
          = readU32 (symbolRecord (u32 (stringTable T (symbols.take i)).length)
              symbols[i].addr 1 0 2).bytes k)
    ∧ (∀ k : Nat, k + 2 ≤ 18 →
        readU16 (emitted BytesPerWord T stack io symbols data accessFlags alignment)
            (60 + data.length + subSize (pad data.length) data.length + 18 * i + k)
          = readU16 (symbolRecord (u32 (stringTable T (symbols.take i)).length)
              symbols[i].addr 1 0 2).bytes k)
    ∧ (∀ k : Nat, k < 18 →
        readU8 (emitted BytesPerWord T stack io symbols data accessFlags alignment)
            (60 + data.length + subSize (pad data.length) data.length + 18 * i + k)
          = readU8 (symbolRecord (u32 (stringTable T (symbols.take i)).length)
              symbols[i].addr 1 0 2).bytes k) := by
  obtain ⟨front, rest, hl, hr, he⟩ :=
    emitted_record BytesPerWord T stack io symbols data accessFlags alignment m hm i hi
  have e : ∀ k : Nat, 60 + data.length + subSize (pad data.length) data.length + 18 * i + k
      - front.length = 18 * i + k := by
    intro k; omega
  refine ⟨?_, ?_, ?_, ?_⟩
  · rw [he, ← hl, ← List.drop_drop, List.drop_left]
    exact take_drop_symbolBytes _ _ i _ hr
  · intro k hk
    rw [he, readU32_append_right _ _ _ (by omega), e k]
    exact readU32_symbolBytes _ _ i k _ hr hk
  · intro k hk
    rw [he, readU16_append_right _ _ _ (by omega), e k]
    exact readU16_symbolBytes _ _ i k _ hr hk
  · intro k hk
    rw [he, readU8_append_right _ _ _ (by omega), e k]
    exact readU8_symbolBytes _ _ i k _ hr hk

/-- C12: for every accepted `writeObject` input and every index `i` into the
symbol list, the `i`-th emitted symbol record occupies the 18 bytes at offset
`18 * i` of the symbol table, packed and little-endian, with nameShort = 0,
value = the address of the `i`-th symbol (as the `unsigned` that `addSymbol`
receives), sectionIndex = 1, type = 0, storageClass = 2 and auxCount = 0; the
records are in the order of the input symbol list. -/
theorem writeObject_symbol_records (BytesPerWord : Nat) (T : Tools) (stack : Uninit)
    (io : Streams) (symbols : List SymbolInfo) (data : List Nat) (accessFlags alignment : Nat)
    (ha : alignment = 0 ∨ alignment = 1 ∨ alignment = 2 ∨ alignment = 4 ∨ alignment = 8)
    (i : Nat) (hi : i < symbols.length) :
    ((emitted BytesPerWord T stack io symbols data accessFlags alignment).drop
        (60 + data.length + subSize (pad data.length) data.length + 18 * i)).take 18
      = (symbolRecord (u32 (stringTable T (symbols.take i)).length)
          symbols[i].addr 1 0 2).bytes
    ∧ (symbolRecord (u32 (stringTable T (symbols.take i)).length)
          symbols[i].addr 1 0 2).bytes.length = 18
    ∧ readU32 (emitted BytesPerWord T stack io symbols data accessFlags alignment)
        (60 + data.length + subSize (pad data.length) data.length + 18 * i + 0) = 0
    ∧ readU32 (emitted BytesPerWord T stack io symbols data accessFlags alignment)
        (60 + data.length + subSize (pad data.length) data.length + 18 * i + 8)
        = u32 symbols[i].addr
    ∧ (symbols[i].addr < 4294967296 →
        readU32 (emitted BytesPerWord T stack io symbols data accessFlags alignment)
          (60 + data.length + subSize (pad data.length) data.length + 18 * i + 8)
          = symbols[i].addr)
    ∧ readU16 (emitted BytesPerWord T stack io symbols data accessFlags alignment)
        (60 + data.length + subSize (pad data.length) data.length + 18 * i + 12) = 1
    ∧ readU16 (emitted BytesPerWord T stack io symbols data accessFlags alignment)
        (60 + data.length + subSize (pad data.length) data.length + 18 * i + 14) = 0
    ∧ readU8 (emitted BytesPerWord T stack io symbols data accessFlags alignment)
        (60 + data.length + subSize (pad data.length) data.length + 18 * i + 16) = 2
    ∧ readU8 (emitted BytesPerWord T stack io symbols data accessFlags alignment)
        (60 + data.length + subSize (pad data.length) data.length + 18 * i + 17) = 0 := by
  obtain ⟨m, hm⟩ := alignmentMask_isSome ha
  obtain ⟨hb, h32, h16, h8⟩ :=
    emitted_record_reads BytesPerWord T stack io symbols data accessFlags alignment m hm i hi
  obtain ⟨f0, f8, f12, f14, f16, f17⟩ :=
    symbol_bytes_fields (symbolRecord (u32 (stringTable T (symbols.take i)).length)
      symbols[i].addr 1 0 2)
  have hv : readU32 (emitted BytesPerWord T stack io symbols data accessFlags alignment)
      (60 + data.length + subSize (pad data.length) data.length + 18 * i + 8)
      = u32 symbols[i].addr := by
    rw [h32 8 (by decide), f8]
    simp only [symbolRecord, u32, Nat.mod_mod]
  refine ⟨hb, rfl, ?_, hv, ?_, ?_, ?_, ?_, ?_⟩
  · rw [h32 0 (by decide), f0]; rfl
  · intro haddr
    rw [hv]
    exact u32_of_lt haddr
  · rw [h16 12 (by decide), f12]; rfl
  · rw [h16 14 (by decide), f14]; rfl
  · rw [h8 16 (by decide), f16]; rfl
  · rw [h8 17 (by decide), f17]; rfl

/-- C12 at the sample input and its only symbol. -/
theorem writeObject_symbol_records_witness :
    readU32 (emitted 8 sampleTools sampleStack emptyStreams sampleSymbols samplePayload 2 1)
        (60 + samplePayload.length + subSize (pad samplePayload.length) samplePayload.length
          + 18 * 0 + 0) = 0
    ∧ readU16 (emitted 8 sampleTools sampleStack emptyStreams sampleSymbols samplePayload 2 1)
        (60 + samplePayload.length + subSize (pad samplePayload.length) samplePayload.length
          + 18 * 0 + 12) = 1
    ∧ readU8 (emitted 8 sampleTools sampleStack emptyStreams sampleSymbols samplePayload 2 1)
        (60 + samplePayload.length + subSize (pad samplePayload.length) samplePayload.length
          + 18 * 0 + 16) = 2 :=
  ⟨(writeObject_symbol_records 8 sampleTools sampleStack emptyStreams sampleSymbols
      samplePayload 2 1 (by decide) 0 (by decide)).2.2.1,
   (writeObject_symbol_records 8 sampleTools sampleStack emptyStreams sampleSymbols
      samplePayload 2 1 (by decide) 0 (by decide)).2.2.2.2.2.1,
   (writeObject_symbol_records 8 sampleTools sampleStack emptyStreams sampleSymbols
      samplePayload 2 1 (by decide) 0 (by decide)).2.2.2.2.2.2.2.1⟩

/-- The file header is written by `FileWriter::writeHeader` on the file writer
as it stands right after the section is registered, when no symbol has been
added yet. -/
theorem writeHeader_before_symbols (BytesPerWord : Nat) (stack : Uninit) (io : Streams)
    (symbolCount : Nat) (name : List Nat) (mask : Nat) (data : List Nat) :
    ((SectionWriter.new stack.sectionHeader
        (FileWriter.new stack.fileHeader (machineOf BytesPerWord).1 (machineOf BytesPerWord).2
          symbolCount) name mask data data.length).2.writeHeader io).2.out
      = io.out ++ (fileHeaderOf BytesPerWord symbolCount data.length).bytes
    ∧ (SectionWriter.new stack.sectionHeader
        (FileWriter.new stack.fileHeader (machineOf BytesPerWord).1 (machineOf BytesPerWord).2
          symbolCount) name mask data data.length).2.symbols = []
    ∧ (SectionWriter.new stack.sectionHeader
        (FileWriter.new stack.fileHeader (machineOf BytesPerWord).1 (machineOf BytesPerWord).2
          symbolCount) name mask data data.length).2.strings = [] := by
  refine ⟨?_, rfl, rfl⟩
  have hp := pad_lt data.length
  have h60 : u32 (20 + 40) = 60 := by decide
  have hpp : u32 (0 + pad data.length) = pad data.length := by
    rw [Nat.zero_add]; exact u32_of_lt hp
  have h1 : u16 (u32 (0 + 1)) = 1 := by decide
  simp only [FileWriter.new, SectionWriter.new, FileWriter.writeHeader, Streams.writeChunk,
    Streams.print, sizeof_IMAGE_FILE_HEADER, sizeof_IMAGE_SECTION_HEADER, h60, hpp, h1,
    fileHeaderOf]
  rw [List.take_of_length_le (by rw [fileHeader_bytes_length])]

theorem manySymbols_length : manySymbols.length = 4294967296 := List.length_replicate _ _

/-- C13, amended: for every accepted `writeObject` input whose symbol list has
fewer than `2^32` entries, the sectionCount field of the serialized file header
is 1, the number of section headers in the output, and the symbolCount field
equals the length of the input symbol list, which is the number of `addSymbol`
calls and of 18-byte symbol records in the output, although the header is
serialized before any symbol is added. -/
theorem writeObject_header_counts (BytesPerWord : Nat) (T : Tools) (stack : Uninit)
    (io : Streams) (symbols : List SymbolInfo) (data : List Nat) (accessFlags alignment : Nat)
    (ha : alignment = 0 ∨ alignment = 1 ∨ alignment = 2 ∨ alignment = 4 ∨ alignment = 8)
    (hcount : symbols.length < 4294967296) :
    readU16 (emitted BytesPerWord T stack io symbols data accessFlags alignment) 2 = 1
    ∧ readU32 (emitted BytesPerWord T stack io symbols data accessFlags alignment) 12
        = symbols.length
    ∧ (∃ (sh : IMAGE_SECTION_HEADER) (front rest : List Nat),
        front.length = 20
        ∧ emitted BytesPerWord T stack io symbols data accessFlags alignment
            = front ++ (sh.bytes ++ (data
                ++ (List.replicate (subSize (pad data.length) data.length) 0
                ++ (symbolBytes (symbolRecords T 0 symbols) ++ rest)))))
    ∧ (symbolRecords T 0 symbols).length = symbols.length
    ∧ (symbolBytes (symbolRecords T 0 symbols)).length = 18 * symbols.length
    ∧ (∀ (name : List Nat) (mask : Nat),
        ((SectionWriter.new stack.sectionHeader
            (FileWriter.new stack.fileHeader (machineOf BytesPerWord).1
              (machineOf BytesPerWord).2 symbols.length) name mask data
              data.length).2.writeHeader io).2.out
          = io.out
              ++ (emitted BytesPerWord T stack io symbols data accessFlags alignment).take 20
        ∧ (SectionWriter.new stack.sectionHeader
            (FileWriter.new stack.fileHeader (machineOf BytesPerWord).1
              (machineOf BytesPerWord).2 symbols.length) name mask data
              data.length).2.symbols = []) := by
  obtain ⟨m, hm⟩ := alignmentMask_isSome ha
  have he := emitted_eq BytesPerWord T stack io symbols data accessFlags alignment m hm
  refine ⟨readU16_emitted_sectionCount BytesPerWord T stack io symbols data accessFlags
      alignment m hm, ?_, ⟨_, _, _, fileHeader_bytes_length _, he⟩,
    symbolRecords_length _ _ _, ?_, ?_⟩
  · rw [readU32_emitted_symbolCount BytesPerWord T stack io symbols data accessFlags alignment
      m hm]
    exact u32_of_lt hcount
  · rw [symbolBytes_length, symbolRecords_length]
  · intro name mask
    obtain ⟨h1, h2, _⟩ :=
      writeHeader_before_symbols BytesPerWord stack io symbols.length name mask data
    refine ⟨?_, h2⟩
    rw [h1, he, List.take_left' (fileHeader_bytes_length _)]

/-- C13 as stated fails: for a symbol list of `2^32` entries and an empty
payload the call is accepted and the output holds `2^32` symbol records
(`18 * 2^32` bytes), but the symbolCount field of the header is 0. -/
theorem writeObject_header_counts_counterexample :
    (1 = 0 ∨ 1 = 1 ∨ 1 = 2 ∨ 1 = 4 ∨ 1 = 8)
    ∧ (writeObject 8 sampleTools sampleStack emptyStreams manySymbols [] 2 1).1 = true
    ∧ manySymbols.length = 4294967296
    ∧ (symbolRecords sampleTools 0 manySymbols).length = 4294967296
    ∧ (symbolBytes (symbolRecords sampleTools 0 manySymbols)).length = 18 * 4294967296
    ∧ readU32 (emitted 8 sampleTools sampleStack emptyStreams manySymbols [] 2 1) 12 = 0 := by
  have hm : alignmentMask 1 = some 0x100000 := by decide
  refine ⟨by decide, ?_, manySymbols_length, ?_, ?_, ?_⟩
  · rw [writeObject_out 8 sampleTools sampleStack emptyStreams manySymbols [] 2 1 _ hm]
  · rw [symbolRecords_length, manySymbols_length]
  · rw [symbolBytes_length, symbolRecords_length, manySymbols_length]
  · rw [readU32_emitted_symbolCount 8 sampleTools sampleStack emptyStreams manySymbols [] 2 1
      _ hm, manySymbols_length]
    decide

/-- C13, amended, at the sample input. -/
theorem writeObject_header_counts_witness :
    readU16 (emitted 8 sampleTools sampleStack emptyStreams sampleSymbols samplePayload 2 1) 2 = 1
    ∧ readU32 (emitted 8 sampleTools sampleStack emptyStreams sampleSymbols samplePayload 2 1) 12
        = sampleSymbols.length :=
  ⟨(writeObject_header_counts 8 sampleTools sampleStack emptyStreams sampleSymbols
      samplePayload 2 1 (by decide) (by decide)).1,
   (writeObject_header_counts 8 sampleTools sampleStack emptyStreams sampleSymbols
      samplePayload 2 1 (by decide) (by decide)).2.1⟩

/-! ## Claims about alignment, `addSymbol`, the name field and `finalSize` -/

theorem alignment_bits (T : Tools) (accessFlags m : Nat)
    (hv : m = 0x100000 ∨ m = 0x200000 ∨ m = 0x300000 ∨ m = 0x400000) :
    u32 (sectionChoice T accessFlags (m ||| IMAGE_SCN_MEM_READ)).2 &&& 0x00F00000 = m := by
  by_cases hw : accessFlags &&& T.Writable ≠ 0
  · by_cases he : accessFlags &&& T.Executable ≠ 0
    · rw [sectionChoice_rwx T accessFlags _ hw he]
      rcases hv with h | h | h | h <;> subst h <;> decide
    · rw [sectionChoice_data T accessFlags _ hw he]
      rcases hv with h | h | h | h <;> subst h <;> decide
  · rw [sectionChoice_text T accessFlags _ hw]
    rcases hv with h | h | h | h <;> subst h <;> decide

/-- C15: for every word width, symbol list, payload and `accessFlags`,
`writeObject` with alignment 0 produces byte for byte what it produces with
alignment 1; and for alignment 0 or 1, 2, 4, 8 the alignment bits (mask
0x00F00000) of the emitted section characteristics are 0x100000, 0x200000,
0x300000, 0x400000 respectively, one alignment level per section. -/
theorem writeObject_alignment_levels (BytesPerWord : Nat) (T : Tools) (stack : Uninit)
    (io : Streams) (symbols : List SymbolInfo) (data : List Nat) (accessFlags : Nat) :
    writeObject BytesPerWord T stack io symbols data accessFlags 0
        = writeObject BytesPerWord T stack io symbols data accessFlags 1
    ∧ emitted BytesPerWord T stack io symbols data accessFlags 0
        = emitted BytesPerWord T stack io symbols data accessFlags 1
    ∧ readU32 (emitted BytesPerWord T stack io symbols data accessFlags 0) 56 &&& 0x00F00000
        = 0x100000
    ∧ readU32 (emitted BytesPerWord T stack io symbols data accessFlags 1) 56 &&& 0x00F00000
        = 0x100000
    ∧ readU32 (emitted BytesPerWord T stack io symbols data accessFlags 2) 56 &&& 0x00F00000
        = 0x200000
    ∧ readU32 (emitted BytesPerWord T stack io symbols data accessFlags 4) 56 &&& 0x00F00000
        = 0x300000
    ∧ readU32 (emitted BytesPerWord T stack io symbols data accessFlags 8) 56 &&& 0x00F00000
        = 0x400000 := by
  have h0 : alignmentMask 0 = some 0x100000 := by decide
  have h1 : alignmentMask 1 = some 0x100000 := by decide
  have h2 : alignmentMask 2 = some 0x200000 := by decide
  have h4 : alignmentMask 4 = some 0x300000 := by decide
  have h8 : alignmentMask 8 = some 0x400000 := by decide
  have hw : writeObject BytesPerWord T stack io symbols data accessFlags 0
      = writeObject BytesPerWord T stack io symbols data accessFlags 1 := by
    rw [writeObject_out BytesPerWord T stack io symbols data accessFlags 0 _ h0,
      writeObject_out BytesPerWord T stack io symbols data accessFlags 1 _ h1]
  refine ⟨hw, ?_, ?_, ?_, ?_, ?_, ?_⟩
  · unfold emitted
    rw [hw]
  · rw [readU32_emitted_characteristics BytesPerWord T stack io symbols data accessFlags 0 _ h0]
    exact alignment_bits T accessFlags _ (Or.inl rfl)
  · rw [readU32_emitted_characteristics BytesPerWord T stack io symbols data accessFlags 1 _ h1]
    exact alignment_bits T accessFlags _ (Or.inl rfl)
  · rw [readU32_emitted_characteristics BytesPerWord T stack io symbols data accessFlags 2 _ h2]
    exact alignment_bits T accessFlags _ (Or.inr (Or.inl rfl))
  · rw [readU32_emitted_characteristics BytesPerWord T stack io symbols data accessFlags 4 _ h4]
    exact alignment_bits T accessFlags _ (Or.inr (Or.inr (Or.inl rfl)))
  · rw [readU32_emitted_characteristics BytesPerWord T stack io symbols data accessFlags 8 _ h8]
    exact alignment_bits T accessFlags _ (Or.inr (Or.inr (Or.inr rfl)))

/-- C19: for every file-writer state and every (name, address, sectionIndex,
type, storageClass), `addSymbol` leaves the streams as they were (it takes no
sink and writes to none) and leaves sectionCount, symbolCount, dataStart,
dataOffset and the file header unchanged; the string table gains exactly the
one entry `StringTable::add` appends for the name, and the symbol buffer grows
by exactly 18 bytes, its previous contents kept as a prefix. -/
theorem addSymbol_frame (T : Tools) (f : FileWriter) (io : Streams) (name : List Nat)
    (addr sectionNumber type storageClass : Nat) :
    (FileWriter.step T (f, io)
        (FileOp.addSymbol name addr sectionNumber type storageClass)).2 = io
    ∧ (FileWriter.step T (f, io)
        (FileOp.addSymbol name addr sectionNumber type storageClass)).1
        = f.addSymbol T name addr sectionNumber type storageClass
    ∧ (f.addSymbol T name addr sectionNumber type storageClass).sectionCount = f.sectionCount
    ∧ (f.addSymbol T name addr sectionNumber type storageClass).symbolCount = f.symbolCount
    ∧ (f.addSymbol T name addr sectionNumber type storageClass).dataStart = f.dataStart
    ∧ (f.addSymbol T name addr sectionNumber type storageClass).dataOffset = f.dataOffset
    ∧ (f.addSymbol T name addr sectionNumber type storageClass).header = f.header
    ∧ (f.addSymbol T name addr sectionNumber type storageClass).strings
        = (StringTable.add T f.strings name).1
    ∧ (f.addSymbol T name addr sectionNumber type storageClass).strings
        = f.strings ++ (name ++ T.terminator)
    ∧ (f.addSymbol T name addr sectionNumber type storageClass).symbols
        = f.symbols
            ++ (symbolRecord (u32 f.strings.length) addr sectionNumber type storageClass).bytes
    ∧ (f.addSymbol T name addr sectionNumber type storageClass).symbols.length
        = f.symbols.length + 18
    ∧ (f.addSymbol T name addr sectionNumber type storageClass).symbols.take f.symbols.length
        = f.symbols := by
  have hs := addSymbol_symbols T f name addr sectionNumber type storageClass
  refine ⟨rfl, rfl, rfl, rfl, rfl, rfl, rfl, rfl, rfl, hs, ?_, ?_⟩
  · rw [hs, List.length_append, symbol_bytes_length]
  · rw [hs]
    exact List.take_left _ _

theorem sectionChoice_name_length (T : Tools) (accessFlags sectionMask : Nat) :
    (sectionChoice T accessFlags sectionMask).1.length + 1 ≤ 8 := by
  by_cases hw : accessFlags &&& T.Writable ≠ 0
  · by_cases he : accessFlags &&& T.Executable ≠ 0
    · rw [sectionChoice_rwx T accessFlags _ hw he]
      show name_rwx.length + 1 ≤ 8
      decide
    · rw [sectionChoice_data T accessFlags _ hw he]
      show name_data.length + 1 ≤ 8
      decide
  · rw [sectionChoice_text T accessFlags _ hw]
    show name_text.length + 1 ≤ 8
    decide

/-- C20 at the sample input (`Executable` access, so the name is `.text`):
over a stack whose indeterminate bytes hold 0xCC the emitted name field is
`.text`, one zero byte, and then the two stack bytes 0xCC 0xCC, not zero bytes;
over a stack that happens to hold zeros the same call emits `.text` followed by
three zero bytes. The field is therefore not determined by `accessFlags`.
Every name `writeObject` can choose has at most 7 characters, so the copy with
its terminator stays inside the 8-byte field. -/
theorem writeObject_section_name_sample :
    ((emitted 8 sampleTools sampleStack emptyStreams sampleSymbols samplePayload 2 1).drop
        20).take 8 = [46, 116, 101, 120, 116, 0, 204, 204]
    ∧ ((emitted 8 sampleTools zeroStack emptyStreams sampleSymbols samplePayload 2 1).drop
        20).take 8 = [46, 116, 101, 120, 116, 0, 0, 0]
    ∧ name_text ++ [0, 0, 0] = [46, 116, 101, 120, 116, 0, 0, 0]
    ∧ name_text ++ [0, 0, 0] ≠ [46, 116, 101, 120, 116, 0, 204, 204]
    ∧ (∀ (T : Tools) (accessFlags sectionMask : Nat),
        (sectionChoice T accessFlags sectionMask).1.length + 1 ≤ 8) :=
  ⟨by decide, by decide, by decide, by decide, sectionChoice_name_length⟩

theorem SectionWriter_new_sizes (uninit : IMAGE_SECTION_HEADER) (file : FileWriter)
    (name : List Nat) (mask : Nat) (data : List Nat) (dataSize : Nat) :
    (SectionWriter.new uninit file name mask data dataSize).1.finalSize = pad dataSize
    ∧ (SectionWriter.new uninit file name mask data dataSize).1.dataSize = dataSize
    ∧ (SectionWriter.new uninit file name mask data dataSize).1.data = data :=
  ⟨rfl, rfl, rfl⟩

theorem SectionWriter_writeData_out (s : SectionWriter) (io : Streams) :
    (s.writeData io).out
      = io.out ++ (s.data.take s.dataSize
          ++ List.replicate (subSize s.finalSize s.dataSize) 0) := by
  simp only [SectionWriter.writeData, Streams.writeChunk, Streams.writeRepeat,
    List.append_assoc]

/-- C18 at a payload of `2^32 - 1` bytes: the constructor converts the length
to `unsigned` for `pad`, the addition wraps and `finalSize` is 0, which is
below the payload length; the zero-fill count `finalSize - dataSize` underflows
to `2^64 - (2^32 - 1)`, and `writeData` appends `2^64` bytes (the payload and
the zero fill), not `finalSize` bytes. -/
theorem SectionWriter_finalSize_huge :
    hugePayload.length = 4294967295
    ∧ hugeSection.1.dataSize = 4294967295
    ∧ hugeSection.1.finalSize = 0
    ∧ ¬ (hugeSection.1.dataSize ≤ hugeSection.1.finalSize)
    ∧ subSize hugeSection.1.finalSize hugeSection.1.dataSize = 18446744069414584321
    ∧ ¬ (subSize hugeSection.1.finalSize hugeSection.1.dataSize ≤ 3)
    ∧ (hugeSection.1.writeData emptyStreams).out
        = hugePayload ++ List.replicate 18446744069414584321 0
    ∧ (hugeSection.1.writeData emptyStreams).out.length = 18446744073709551616 := by
  obtain ⟨hf, hd, hdata⟩ := SectionWriter_new_sizes sampleStack.sectionHeader sampleFile
    name_text 0x60100020 hugePayload hugePayload.length
  have hd2 : hugeSection.1.dataSize = 4294967295 := by
    rw [hugeSection, hd, hugePayload_length]
  have hf2 : hugeSection.1.finalSize = 0 := by
    rw [hugeSection, hf, hugePayload_length]
    decide
  have hdata2 : hugeSection.1.data = hugePayload := by
    rw [hugeSection, hdata]
  have ho : (hugeSection.1.writeData emptyStreams).out
      = hugePayload ++ List.replicate 18446744069414584321 0 := by
    have hz : subSize 0 4294967295 = 18446744069414584321 := by decide
    rw [SectionWriter_writeData_out, hd2, hf2, hdata2, hz,
      List.take_of_length_le (by rw [hugePayload_length])]
    exact List.nil_append _
  refine ⟨hugePayload_length, hd2, hf2, ?_, ?_, ?_, ho, ?_⟩
  · rw [hd2, hf2]; decide
  · rw [hd2, hf2]; decide
  · rw [hd2, hf2]; decide
  · rw [ho, List.length_append, List.length_replicate, hugePayload_length]

/-! ## Claim about names in the string table -/

theorem stringTable_length_sum (T : Tools) (symbols : List SymbolInfo) :
    (stringTable T symbols).length
      = (symbols.map (fun s => (s.name ++ T.terminator).length)).sum := by
  induction symbols with
  | nil => rfl
  | cons s rest ih =>
    simp only [stringTable, List.length_append, List.map_cons, List.sum_cons, ih]

/-- The entries before symbol `i`, and the entry of symbol `i`, fit in the
string table. -/
theorem stringTable_take_le (T : Tools) (symbols : List SymbolInfo) (i : Nat)
    (hi : i < symbols.length) :
    (stringTable T (symbols.take i)).length + (symbols[i].name ++ T.terminator).length
      ≤ (stringTable T symbols).length := by
  have h := congrArg List.length (stringTable_split T symbols i hi)
  simp only [List.length_append] at h ⊢
  omega

/-- The string-table offsets of the entries grow by at least the size of an
entry. -/
theorem stringTable_take_lt (T : Tools) (symbols : List SymbolInfo) (i j : Nat)
    (hi : i < symbols.length) (hij : i < j) (hj : j ≤ symbols.length) :
    (stringTable T (symbols.take i)).length + symbols[i].name.length + T.terminator.length
      ≤ (stringTable T (symbols.take j)).length := by
  have hi2 : i < (symbols.take j).length := by
    rw [List.length_take]; omega
  have h := stringTable_take_le T (symbols.take j) i hi2
  rw [List.take_take, Nat.min_eq_left (Nat.le_of_lt hij), List.getElem_take] at h
  simp only [List.length_append] at h
  omega

/-- The on-disk string table from the entry of symbol `i` on. -/
theorem emitted_drop_entry (BytesPerWord : Nat) (T : Tools) (stack : Uninit) (io : Streams)
    (symbols : List SymbolInfo) (data : List Nat) (accessFlags alignment m : Nat)
    (hm : alignmentMask alignment = some m) (i : Nat) (hi : i < symbols.length) :
    (emitted BytesPerWord T stack io symbols data accessFlags alignment).drop
        (60 + data.length + subSize (pad data.length) data.length + 18 * symbols.length
          + ((stringTable T (symbols.take i)).length + 4))
      = (symbols[i].name ++ T.terminator) ++ stringTable T (symbols.drop (i + 1)) := by
  rw [← List.drop_drop,
    emitted_drop_table BytesPerWord T stack io symbols data accessFlags alignment m hm,
    Nat.add_comm _ 4, ← List.drop_drop, List.drop_left' (le32_length _)]
  conv_lhs => rw [stringTable_split T symbols i hi]
  exact List.drop_left _ _

/-- C14, amended: for every accepted `writeObject` input whose string-table
length plus 4 is below `2^32` (entries being terminated by at least one byte),
names are never deduplicated: the nameLongOffset values of successive symbol
records are strictly increasing, so any two symbols, also two with identical
names, reference two different string-table entries, each holding its own copy
of the name, and the string-table byte length is the sum of the entry sizes of
all names in the list. -/
theorem writeObject_names_not_deduplicated (BytesPerWord : Nat) (T : Tools) (stack : Uninit)
    (io : Streams) (symbols : List SymbolInfo) (data : List Nat) (accessFlags alignment : Nat)
    (ha : alignment = 0 ∨ alignment = 1 ∨ alignment = 2 ∨ alignment = 4 ∨ alignment = 8)
    (hterm : T.terminator ≠ [])
    (hstr : (stringTable T symbols).length + 4 < 4294967296) :
    (∀ i : Nat, i + 1 < symbols.length →
      readU32 (emitted BytesPerWord T stack io symbols data accessFlags alignment)
          (60 + data.length + subSize (pad data.length) data.length + 18 * i + 4)
        < readU32 (emitted BytesPerWord T stack io symbols data accessFlags alignment)
          (60 + data.length + subSize (pad data.length) data.length + 18 * (i + 1) + 4))
    ∧ (∀ i j : Nat, i < j → j < symbols.length →
      readU32 (emitted BytesPerWord T stack io symbols data accessFlags alignment)
          (60 + data.length + subSize (pad data.length) data.length + 18 * i + 4)
        < readU32 (emitted BytesPerWord T stack io symbols data accessFlags alignment)
          (60 + data.length + subSize (pad data.length) data.length + 18 * j + 4))
    ∧ (∀ (i : Nat) (hi : i < symbols.length),
      ((emitted BytesPerWord T stack io symbols data accessFlags alignment).drop
          (60 + data.length + subSize (pad data.length) data.length + 18 * symbols.length
            + readU32 (emitted BytesPerWord T stack io symbols data accessFlags alignment)
                (60 + data.length + subSize (pad data.length) data.length + 18 * i + 4))).take
          (symbols[i].name ++ T.terminator).length = symbols[i].name ++ T.terminator)
    ∧ (emitted BytesPerWord T stack io symbols data accessFlags alignment).drop
          (60 + data.length + subSize (pad data.length) data.length + 18 * symbols.length)
        = le32 (u32 ((stringTable T symbols).length + 4)) ++ stringTable T symbols
    ∧ (stringTable T symbols).length
        = (symbols.map (fun s => (s.name ++ T.terminator).length)).sum := by
  obtain ⟨m, hm⟩ := alignmentMask_isSome ha
  have hpos : 1 ≤ T.terminator.length := List.length_pos.mpr hterm
  have hlong : ∀ (i : Nat), i < symbols.length →
      readU32 (emitted BytesPerWord T stack io symbols data accessFlags alignment)
          (60 + data.length + subSize (pad data.length) data.length + 18 * i + 4)
        = (stringTable T (symbols.take i)).length + 4 := by
    intro i hi
    have hle := stringTable_take_le T symbols i hi
    rw [readU32_emitted_long BytesPerWord T stack io symbols data accessFlags alignment m hm
      i hi, u32_of_lt (show (stringTable T (symbols.take i)).length < 4294967296 by omega),
      u32_of_lt (by omega)]
  have hlt : ∀ i j : Nat, i < j → j < symbols.length →
      readU32 (emitted BytesPerWord T stack io symbols data accessFlags alignment)
          (60 + data.length + subSize (pad data.length) data.length + 18 * i + 4)
        < readU32 (emitted BytesPerWord T stack io symbols data accessFlags alignment)
          (60 + data.length + subSize (pad data.length) data.length + 18 * j + 4) := by
    intro i j hij hj
    have hi : i < symbols.length := Nat.lt_trans hij hj
    rw [hlong i hi, hlong j hj]
    have h := stringTable_take_lt T symbols i j hi hij (Nat.le_of_lt hj)
    omega
  refine ⟨fun i hi => hlt i (i + 1) (Nat.lt_succ_self i) hi, hlt, ?_,
    emitted_drop_table BytesPerWord T stack io symbols data accessFlags alignment m hm,
    stringTable_length_sum T symbols⟩
  intro i hi
  rw [hlong i hi,
    emitted_drop_entry BytesPerWord T stack io symbols data accessFlags alignment m hm i hi]
  exact List.take_left _ _

/-- C14 as stated fails: with an empty payload and the symbols of `wrapSymbols`
the call is accepted and the nameLongOffset fields of the two successive
records are 4 and 0, which is not increasing: the second offset has wrapped. -/
theorem writeObject_names_not_deduplicated_counterexample :
    (1 = 0 ∨ 1 = 1 ∨ 1 = 2 ∨ 1 = 4 ∨ 1 = 8)
    ∧ sampleTools.terminator ≠ []
    ∧ 0 + 1 < wrapSymbols.length
    ∧ readU32 (emitted 8 sampleTools sampleStack emptyStreams wrapSymbols [] 2 1)
        (60 + 18 * 0 + 4) = 4
    ∧ readU32 (emitted 8 sampleTools sampleStack emptyStreams wrapSymbols [] 2 1)
        (60 + 18 * (0 + 1) + 4) = 0
    ∧ ¬ (readU32 (emitted 8 sampleTools sampleStack emptyStreams wrapSymbols [] 2 1)
          (60 + 18 * 0 + 4)
        < readU32 (emitted 8 sampleTools sampleStack emptyStreams wrapSymbols [] 2 1)
          (60 + 18 * (0 + 1) + 4)) := by
  have hm : alignmentMask 1 = some 0x100000 := by decide
  have h1 : (stringTable sampleTools (wrapSymbols.take 1)).length = 4294967292 :=
    (stringTable_two_lengths 4294967291).1
  have h0 : (stringTable sampleTools (wrapSymbols.take 0)).length = 0 := by
    rw [List.take_zero]; rfl
  have hl0 := readU32_emitted_long 8 sampleTools sampleStack emptyStreams wrapSymbols [] 2 1 _
    hm 0 (by decide)
  have hl1 := readU32_emitted_long 8 sampleTools sampleStack emptyStreams wrapSymbols [] 2 1 _
    hm 1 (by decide)
  have hoff0 : 60 + ([] : List Nat).length + subSize (pad ([] : List Nat).length)
      ([] : List Nat).length + 18 * 0 + 4 = 60 + 18 * 0 + 4 := by decide
  have hoff1 : 60 + ([] : List Nat).length + subSize (pad ([] : List Nat).length)
      ([] : List Nat).length + 18 * 1 + 4 = 60 + 18 * (0 + 1) + 4 := by decide
  rw [hoff0, h0] at hl0
  rw [hoff1, h1] at hl1
  have e0 : readU32 (emitted 8 sampleTools sampleStack emptyStreams wrapSymbols [] 2 1)
      (60 + 18 * 0 + 4) = 4 := by
    rw [hl0]; decide
  have e1 : readU32 (emitted 8 sampleTools sampleStack emptyStreams wrapSymbols [] 2 1)
      (60 + 18 * (0 + 1) + 4) = 0 := by
    rw [hl1]; decide
  refine ⟨by decide, by decide, by decide, e0, e1, ?_⟩
  rw [e0, e1]
  decide

/-- C14, amended, at two symbols with the same name: the second record
references a later entry than the first. -/
theorem writeObject_names_not_deduplicated_witness :
    readU32 (emitted 8 sampleTools sampleStack emptyStreams twinSymbols samplePayload 2 1)
        (60 + samplePayload.length + subSize (pad samplePayload.length) samplePayload.length
          + 18 * 0 + 4)
      < readU32 (emitted 8 sampleTools sampleStack emptyStreams twinSymbols samplePayload 2 1)
        (60 + samplePayload.length + subSize (pad samplePayload.length) samplePayload.length
          + 18 * (0 + 1) + 4) :=
  (writeObject_names_not_deduplicated 8 sampleTools sampleStack emptyStreams twinSymbols
    samplePayload 2 1 (by decide) (by decide) (by decide)).1 0 (by decide)

/-! ## Claims about the layout counters -/

theorem step_symbolCount (T : Tools) (s : FileWriter × Streams) (op : FileOp) :
    (FileWriter.step T s op).1.symbolCount = s.1.symbolCount := by
  cases op <;> rfl

theorem registeredSize_mod_four (ops : List FileOp) : registeredSize ops % 4 = 0 := by
  induction ops with
  | nil => rfl
  | cons op rest ih =>
    cases op with
    | register a =>
      have := pad_mod_four a.data.length
      simp only [registeredSize]
      omega
    | addSymbol n a b c d => simpa only [registeredSize] using ih
    | writeHeader => simpa only [registeredSize] using ih
    | writeData => simpa only [registeredSize] using ih

/-- C16 as stated fails at one section writer constructed with a 52-character
name and the 4-byte sample payload: nothing overflows 32 bits, yet `strcpy`
writes 53 bytes through the 8-byte name field, past the end of the 40-byte
section header, so the construction has no defined result and no layout. -/
theorem constructSections_layout_counterexample :
    1 ≤ [longArgs].length
    ∧ 20 + 40 * [longArgs].length + paddedSize [longArgs] = 64
    ∧ longArgs.name.length + 1 = 53
    ∧ sizeof_IMAGE_SECTION_HEADER = 40
    ∧ constructSections (FileWriter.new sampleStack.fileHeader IMAGE_FILE_MACHINE_AMD64 0 1)
        [longArgs] = none :=
  ⟨by decide, by decide, by decide, rfl, rfl⟩

end PE
